import Mathlib

/-!
# Verification of the query-orchestration and document-ingestion pipeline

This file is a shallow embedding, in Lean 4, of the core of the `tecllm`
repository (a multi-tenant RAG service): the cache-key derivation and cache
behaviour of `app/services/cache_service.py` and `app/services/rag_service.py`,
the output normalization of `app/services/llm_service.py`, the document
chunking of `app/services/document_processor.py`, and the batch endpoint of
`app/routers/evaluate.py`.

Modelling conventions:
* Python JSON-shaped values are modelled by the inductive type `Json` below
  (strings, integers, booleans, null, arrays, objects).  JSON numbers are
  modelled on the integer fragment; floating-point payload values are outside
  the modelled fragment.
* `json.dumps` followed by `json.loads` is the identity on this domain, so the
  Redis store is modelled as holding `Json` values directly.
* External network services (Pinecone search, the Anthropic completion call,
  the SHA-256 digest of `hashlib`) are modelled as function-valued parameters
  of the orchestrator (`Deps` below): the orchestrator's control flow is
  translated line by line from the source, while the remote calls themselves
  are arbitrary functions returning either a value or a raised exception.
* `uuid.uuid4` is modelled as a fresh-identifier supply: the state carries a
  counter and each call mints `pyUuid counter`; distinctness of successively
  minted ids is the property guaranteed by uuid4.
* Wall-clock elapsed time `int((time.time() - start_time) * 1000)` is modelled
  as an explicit per-call parameter `elapsedMs`.
-/

/-- JSON-shaped Python values (dict / list / str / int / bool / None).
Numbers are modelled on the integer fragment. -/
inductive Json where
  | str (s : String)
  | num (n : Int)
  | bool (b : Bool)
  | null
  | arr (items : List Json)
  | obj (fields : List (String × Json))
  deriving Repr

namespace Json

/-- Python `d[k]` / `k in d` on a dict, modelled as first-match lookup in the
association list of fields. -/
def lookupField : List (String × Json) → String → Option Json
  | [], _ => none
  | (k', v) :: rest, k => if k' = k then some v else lookupField rest k

/-- Lookup of a key in an object; `none` for non-objects. -/
def jlookup : Json → String → Option Json
  | .obj fields, k => lookupField fields k
  | _, _ => none

/-- Python dict assignment `d[k] = v`: replaces the value at an existing key in
place, otherwise appends the new key at the end. -/
def setField : List (String × Json) → String → Json → List (String × Json)
  | [], k, v => [(k, v)]
  | (k', v') :: rest, k, v =>
    if k' = k then (k, v) :: rest else (k', v') :: setField rest k v

/-- The keys of an object, in insertion order; `[]` for non-objects. -/
def objKeys : Json → List String
  | .obj fields => fields.map (·.1)
  | _ => []

/-- Python truthiness of a JSON-shaped value (`if cached:` in
`rag_service.py`): empty containers, empty strings, `0`, `False` and `None`
are falsy. -/
def truthy : Json → Bool
  | .str s => s ≠ ""
  | .num n => n ≠ 0
  | .bool b => b
  | .null => false
  | .arr items => !items.isEmpty
  | .obj fields => !fields.isEmpty

end Json

/-! ## Decimal numerals

`f"{i}"` in Python and `Nat.repr` in Lean both produce the decimal numeral of
a natural number.  The chunk-id uniqueness claims reduce to injectivity of the
decimal numeral and to the fact that it contains no `'_'` character; neither
fact is available in Mathlib, so we prove both here by relating
`Nat.toDigitsCore` to a structurally recursive reference function. -/

/-- Reference decimal digit list of `n`, most significant first. -/
def decDigits (n : Nat) : List Char :=
  if _h : n < 10 then [Nat.digitChar n]
  else decDigits (n / 10) ++ [Nat.digitChar (n % 10)]
  decreasing_by exact Nat.div_lt_self (by omega) (by omega)

theorem decDigits_of_lt {n : Nat} (h : n < 10) : decDigits n = [Nat.digitChar n] := by
  rw [decDigits]; simp [h]

theorem decDigits_of_ge {n : Nat} (h : ¬ n < 10) :
    decDigits n = decDigits (n / 10) ++ [Nat.digitChar (n % 10)] := by
  rw [decDigits]; simp [h]

theorem toDigitsCore_eq_decDigits :
    ∀ (fuel n : Nat) (acc : List Char), n < fuel →
      Nat.toDigitsCore 10 fuel n acc = decDigits n ++ acc := by
  intro fuel
  induction fuel with
  | zero => intro n acc h; omega
  | succ fuel ih =>
    intro n acc h
    simp only [Nat.toDigitsCore]
    by_cases hz : n / 10 = 0
    · have hn : n < 10 := by omega
      simp [hz, decDigits_of_lt hn, Nat.mod_eq_of_lt hn]
    · have hn : ¬ n < 10 := by
        intro hlt
        exact hz (Nat.div_eq_of_lt hlt)
      have hfuel : n / 10 < fuel := by
        have := Nat.div_lt_self (by omega : 0 < n) (by omega : 1 < 10)
        omega
      simp only [hz, if_false]
      rw [ih (n / 10) _ hfuel, decDigits_of_ge hn, List.append_assoc]
      rfl

theorem repr_eq_decDigits (n : Nat) : Nat.repr n = (decDigits n).asString := by
  unfold Nat.repr Nat.toDigits
  rw [toDigitsCore_eq_decDigits (n + 1) n [] (Nat.lt_succ_self n), List.append_nil]

/-- Every character of a decimal numeral is one of `'0'`–`'9'`. -/
theorem mem_decDigits_digit {n : Nat} {c : Char} (h : c ∈ decDigits n) : c.isDigit := by
  induction n using Nat.strong_induction_on with
  | _ n ih =>
    by_cases hn : n < 10
    · rw [decDigits_of_lt hn] at h
      simp only [List.mem_singleton] at h
      subst h
      interval_cases n <;> decide
    · rw [decDigits_of_ge hn] at h
      rcases List.mem_append.mp h with h1 | h1
      · exact ih (n / 10) (Nat.div_lt_self (by omega) (by omega)) h1
      · simp only [List.mem_singleton] at h1
        subst h1
        have := Nat.mod_lt n (y := 10) (by omega)
        interval_cases h : n % 10 <;> decide

/-- Decode a decimal digit list back to the number. -/
def decVal (l : List Char) : Nat :=
  l.foldl (fun acc c => 10 * acc + (c.toNat - 48)) 0

theorem decVal_append_singleton (l : List Char) (c : Char) :
    decVal (l ++ [c]) = 10 * decVal l + (c.toNat - 48) := by
  unfold decVal
  rw [List.foldl_append]
  rfl

theorem decVal_decDigits (n : Nat) : decVal (decDigits n) = n := by
  induction n using Nat.strong_induction_on with
  | _ n ih =>
    by_cases hn : n < 10
    · rw [decDigits_of_lt hn]
      unfold decVal
      interval_cases n <;> decide
    · rw [decDigits_of_ge hn, decVal_append_singleton,
        ih (n / 10) (Nat.div_lt_self (by omega) (by omega))]
      have hd : (Nat.digitChar (n % 10)).toNat - 48 = n % 10 := by
        have := Nat.mod_lt n (y := 10) (by omega)
        interval_cases h : n % 10 <;> decide
      rw [hd]
      omega

theorem decDigits_injective : Function.Injective decDigits := by
  intro m n h
  have := decVal_decDigits m
  rw [h, decVal_decDigits] at this
  omega

theorem natRepr_injective : Function.Injective Nat.repr := by
  intro m n h
  rw [repr_eq_decDigits, repr_eq_decDigits] at h
  apply decDigits_injective
  have : (decDigits m).asString.data = (decDigits n).asString.data := by rw [h]
  simpa [List.asString] using this

theorem underscore_not_mem_decDigits {n : Nat} : '_' ∉ decDigits n := by
  intro h
  have := mem_decDigits_digit h
  simp [Char.isDigit] at this

/-- Splitting on a separator character that occurs in neither left component:
the decomposition `a ++ sep :: s` is unique. -/
theorem sep_split_unique {sep : Char} :
    ∀ (a a' s s' : List Char), sep ∉ a → sep ∉ a' →
      a ++ sep :: s = a' ++ sep :: s' → a = a' ∧ s = s' := by
  intro a
  induction a with
  | nil =>
    intro a' s s' _ ha' h
    cases a' with
    | nil => simpa using h
    | cons c t =>
      simp only [List.nil_append, List.cons_append, List.cons.injEq] at h
      exact absurd (h.1 ▸ List.mem_cons_self c t) ha'
  | cons c t ih =>
    intro a' s s' ha ha' h
    cases a' with
    | nil =>
      simp only [List.cons_append, List.nil_append, List.cons.injEq] at h
      exact absurd (h.1 ▸ List.mem_cons_self sep t) (h.1 ▸ ha)
    | cons c' t' =>
      simp only [List.cons_append, List.cons.injEq] at h
      obtain ⟨rfl, h2⟩ := h
      have := ih t' s s' (fun hm => ha (List.mem_cons_of_mem _ hm))
        (fun hm => ha' (List.mem_cons_of_mem _ hm)) h2
      exact ⟨by rw [this.1], this.2⟩

/-! ## Python string primitives

`str.strip`, `str.find`, slicing and `in`, as used by
`LLMService._try_parse_json` (`app/services/llm_service.py`, lines 93-123).
Strings are manipulated as `List Char` (Python strings are sequences of code
points). -/

/-- The ASCII whitespace stripped by Python `str.strip()`. -/
def isPyWs (c : Char) : Bool :=
  c = ' ' || c = '\t' || c = '\n' || c = '\r' || c = '\x0b' || c = '\x0c'

/-- Python `str.strip()` (ASCII-whitespace fragment). -/
def pyStrip (s : List Char) : List Char :=
  ((s.dropWhile isPyWs).reverse.dropWhile isPyWs).reverse

/-- Scan helper for `pyFind`: the position (counting from `i`) of the first
suffix of `s` that starts with `sub`. -/
def pyFindAux (sub : List Char) : List Char → Nat → Option Nat
  | s, i =>
    if sub.isPrefixOf s then some i
    else
      match s with
      | [] => none
      | _ :: t => pyFindAux sub t (i + 1)

/-- Python `s.find(sub, start)`: lowest index `≥ start` at which `sub` occurs,
`-1` if it does not occur. -/
def pyFind (s sub : List Char) (start : Nat) : Int :=
  match pyFindAux sub (s.drop start) start with
  | some i => (i : Int)
  | none => -1

/-- Python `sub in s`. -/
def pyContains (s sub : List Char) : Bool :=
  pyFind s sub 0 ≥ 0

/-- Python slicing `s[:n]` on a string: the first `n` code points (the
code-point-based counterpart of `String.take`). -/
def pyTake (s : String) (n : Nat) : String :=
  (s.data.take n).asString

/-- Python slicing `s[a:b]` for a non-negative start and a possibly negative
stop index. -/
def pySlice (s : List Char) (a : Nat) (b : Int) : List Char :=
  let n := s.length
  let stop : Int := if b < 0 then max 0 ((n : Int) + b) else min b (n : Int)
  (s.take stop.toNat).drop a

/-! ## `json.loads`

A recursive-descent parser modelling Python's `json.loads` on the fragment
used by this repository: objects, arrays, double-quoted strings with the
standard escapes, integer numerals, `true`/`false`/`null`, with JSON
whitespace.  Inputs whose first parse step would produce a float (a numeral
continued by `.`/`e`/`E`) are rejected by the model (floats are outside the
modelled fragment); duplicate object keys resolve to the last occurrence as in
Python. -/

/-- JSON whitespace skipping (space, tab, newline, carriage return). -/
def skipJsonWs (s : List Char) : List Char :=
  s.dropWhile fun c => c = ' ' || c = '\t' || c = '\n' || c = '\r'

/-- Decode one escape sequence (the character after the backslash plus the
remaining input); `\uXXXX` reads four hex digits. -/
def escDecode (c : Char) (rest : List Char) : Option (Char × List Char) :=
  match c with
  | '"' => some ('"', rest)
  | '\\' => some ('\\', rest)
  | '/' => some ('/', rest)
  | 'b' => some ('\x08', rest)
  | 'f' => some ('\x0c', rest)
  | 'n' => some ('\n', rest)
  | 'r' => some ('\r', rest)
  | 't' => some ('\t', rest)
  | 'u' =>
    match rest with
    | h1 :: h2 :: h3 :: h4 :: rest' =>
      let isHex : Char → Bool := fun h =>
        h.isDigit || ('a' ≤ h && h ≤ 'f') || ('A' ≤ h && h ≤ 'F')
      if isHex h1 && isHex h2 && isHex h3 && isHex h4 then
        let hv : Char → Nat := fun h =>
          if h.isDigit then h.toNat - 48
          else if 'a' ≤ h then h.toNat - 87 else h.toNat - 55
        some (Char.ofNat (((hv h1 * 16 + hv h2) * 16 + hv h3) * 16 + hv h4), rest')
      else none
    | _ => none
  | _ => none

/-- Digits of an integer literal (after the first digit). -/
def readDigits : Nat → List Char → Nat × List Char
  | acc, c :: rest =>
    if c.isDigit then readDigits (10 * acc + (c.toNat - 48)) rest else (acc, c :: rest)
  | acc, [] => (acc, [])

/-- A JSON natural-number literal: `0`, or a nonzero digit followed by digits
(no leading zeros). -/
def parseNatNum : List Char → Option (Nat × List Char)
  | '0' :: rest =>
    match rest with
    | c :: _ => if c.isDigit then none else some (0, rest)
    | [] => some (0, [])
  | c :: rest => if c.isDigit then some (readDigits (c.toNat - 48) rest) else none
  | [] => none

/-- A JSON number literal restricted to the integer fragment: an optional
minus sign and digits, rejected if continued by `.`/`e`/`E` (a float). -/
def parseNumber (s : List Char) : Option (Json × List Char) :=
  let core : List Char → Option (Int × List Char) := fun cs => do
    let (n, r) ← parseNatNum cs
    match r with
    | c :: _ => if c = '.' || c = 'e' || c = 'E' then none else some ((n : Int), r)
    | [] => some ((n : Int), [])
  match s with
  | '-' :: rest => do
    let (n, r) ← core rest
    pure (Json.num (-n), r)
  | _ => do
    let (n, r) ← core s
    pure (Json.num n, r)

mutual

/-- One JSON value (leading whitespace allowed), returning the remainder. -/
def parseValue : Nat → List Char → Option (Json × List Char)
  | 0, _ => none
  | fuel + 1, s =>
    match skipJsonWs s with
    | '{' :: rest =>
      match skipJsonWs rest with
      | '}' :: rest' => some (.obj [], rest')
      | _ => do
        let (fields, r) ← parseMembers fuel (skipJsonWs rest)
        pure (.obj (fields.foldl (fun acc kv => Json.setField acc kv.1 kv.2) []), r)
    | '[' :: rest =>
      match skipJsonWs rest with
      | ']' :: rest' => some (.arr [], rest')
      | _ => do
        let (items, r) ← parseElements fuel (skipJsonWs rest)
        pure (.arr items, r)
    | '"' :: rest => do
      let (str, r) ← parseStringBody fuel rest
      pure (.str str, r)
    | 't' :: 'r' :: 'u' :: 'e' :: rest => some (.bool true, rest)
    | 'f' :: 'a' :: 'l' :: 's' :: 'e' :: rest => some (.bool false, rest)
    | 'n' :: 'u' :: 'l' :: 'l' :: rest => some (.null, rest)
    | s' => parseNumber s'

/-- The members of an object, positioned at the opening quote of a key. -/
def parseMembers : Nat → List Char → Option (List (String × Json) × List Char)
  | 0, _ => none
  | fuel + 1, s =>
    match s with
    | '"' :: rest => do
      let (key, r1) ← parseStringBody fuel rest
      match skipJsonWs r1 with
      | ':' :: r2 => do
        let (v, r3) ← parseValue fuel r2
        match skipJsonWs r3 with
        | ',' :: r4 => do
          let (fields, r5) ← parseMembers fuel (skipJsonWs r4)
          pure ((key, v) :: fields, r5)
        | '}' :: r4 => pure ([(key, v)], r4)
        | _ => none
      | _ => none
    | _ => none

/-- The elements of an array, positioned at the first element. -/
def parseElements : Nat → List Char → Option (List Json × List Char)
  | 0, _ => none
  | fuel + 1, s => do
    let (v, r1) ← parseValue fuel s
    match skipJsonWs r1 with
    | ',' :: r2 => do
      let (items, r3) ← parseElements fuel r2
      pure (v :: items, r3)
    | ']' :: r2 => pure ([v], r2)
    | _ => none

/-- A string body, positioned after the opening quote.  Unescaped control
characters are rejected (Python's strict mode). -/
def parseStringBody : Nat → List Char → Option (String × List Char)
  | 0, _ => none
  | fuel + 1, s =>
    match s with
    | '"' :: rest => some ("", rest)
    | '\\' :: c :: rest => do
      let (ch, r1) ← escDecode c rest
      let (tail, r2) ← parseStringBody fuel r1
      pure (String.mk (ch :: tail.data), r2)
    | c :: rest =>
      if c.toNat < 0x20 then none
      else do
        let (tail, r2) ← parseStringBody fuel rest
        pure (String.mk (c :: tail.data), r2)
    | [] => none

end

/-- Model of `json.loads` on a character list: parse one value and require only
whitespace to remain. -/
def jsonLoadsL (s : List Char) : Option Json :=
  match parseValue (s.length + 2) s with
  | some (v, rest) => if skipJsonWs rest = [] then some v else none
  | none => none

/-- Model of `json.loads` on a string. -/
def jsonLoads (s : String) : Option Json :=
  jsonLoadsL s.data

/-! ## `LLMService._try_parse_json` (`app/services/llm_service.py`, lines 93-123) -/

/-- The second parsing strategy: content of a ```` ```json ```` fenced block
(`text` is assumed already stripped, as in the source where `text` has been
reassigned to `text.strip()`).  `none` when the guard `"```json" in text`
fails or the extracted slice does not parse. -/
def fencedJsonAttempt (t : List Char) : Option Json :=
  if pyContains t "```json".data then
    let jsonStart := (pyFind t "```json".data 0).toNat + 7
    let jsonEnd := pyFind t "```".data jsonStart
    jsonLoadsL (pyStrip (pySlice t jsonStart jsonEnd))
  else none

/-- The third parsing strategy: content of any ```` ``` ```` fenced block. -/
def fencedAnyAttempt (t : List Char) : Option Json :=
  if pyContains t "```".data then
    let jsonStart := (pyFind t "```".data 0).toNat + 3
    let jsonEnd := pyFind t "```".data jsonStart
    jsonLoadsL (pyStrip (pySlice t jsonStart jsonEnd))
  else none

/-- Model of `LLMService._try_parse_json`: strip the text, try a direct `json.loads`,
then a ```` ```json ```` fenced block, then any ```` ``` ```` fenced block,
and fall back to the stripped text as a plain string. -/
def tryParseJson (text : String) : Json :=
  let t := pyStrip text.data
  match jsonLoadsL t with
  | some v => v
  | none =>
    match fencedJsonAttempt t with
    | some v => v
    | none =>
      match fencedAnyAttempt t with
      | some v => v
      | none => .str t.asString

/-- C4: output normalization tries the three strategies in order — direct
parse of the stripped text, ```` ```json ```` fenced block, any ```` ``` ````
fenced block — the first success wins, and otherwise the stripped text is
returned as a plain string; consequently exact JSON parses, ```json-fenced
JSON parses to the same structure, and non-JSON text comes back as the
trimmed original string. -/
theorem llm_output_normalization_order (text : String) :
    (∀ v, jsonLoadsL (pyStrip text.data) = some v → tryParseJson text = v) ∧
    (jsonLoadsL (pyStrip text.data) = none →
      ∀ v, fencedJsonAttempt (pyStrip text.data) = some v → tryParseJson text = v) ∧
    (jsonLoadsL (pyStrip text.data) = none →
      fencedJsonAttempt (pyStrip text.data) = none →
      ∀ v, fencedAnyAttempt (pyStrip text.data) = some v → tryParseJson text = v) ∧
    (jsonLoadsL (pyStrip text.data) = none →
      fencedJsonAttempt (pyStrip text.data) = none →
      fencedAnyAttempt (pyStrip text.data) = none →
      tryParseJson text = .str (pyStrip text.data).asString) ∧
    tryParseJson "\x7b\"score\": 4, \"level\": \"Alto\"\x7d" =
      .obj [("score", .num 4), ("level", .str "Alto")] ∧
    tryParseJson "```json\n\x7b\"score\": 4, \"level\": \"Alto\"\x7d\n```" =
      tryParseJson "\x7b\"score\": 4, \"level\": \"Alto\"\x7d" ∧
    tryParseJson "  Hola, mundo.  " = .str "Hola, mundo." := by
  refine ⟨?_, ?_, ?_, ?_, rfl, rfl, rfl⟩
  · intro v h
    unfold tryParseJson
    simp only [h]
  · intro h1 v h2
    unfold tryParseJson
    simp only [h1, h2]
  · intro h1 h2 v h3
    unfold tryParseJson
    simp only [h1, h2, h3]
  · intro h1 h2 h3
    unfold tryParseJson
    simp only [h1, h2, h3]

/-- Witness for C4: the first strategy fires on a concrete JSON object. -/
theorem llm_output_normalization_order_witness :
    tryParseJson "\x7b\"ok\": true\x7d" = .obj [("ok", .bool true)] :=
  (llm_output_normalization_order "\x7b\"ok\": true\x7d").1 _ rfl

/-! ## `extract_text_from_obj` (`app/services/document_processor.py`, lines 203-216)

The inner flattening function of `DocumentProcessor.process_json`: it walks
dicts and lists; a string encountered as a dict value is emitted as a
`"path: value"` line when its length exceeds 10; dict and list values are
recursed into.  Note that a string encountered as a *list element* reaches the
top of the function, matches neither `isinstance` branch, and contributes
nothing. -/

mutual

/-- Model of `extract_text_from_obj(obj, prefix)`. -/
def extractTextFromObj : Json → String → List String
  | .obj fields, pre => extractFromFields fields pre
  | .arr items, pre => extractFromItems items pre 0
  | _, _ => []

/-- The dict loop `for key, value in obj.items()`. -/
def extractFromFields : List (String × Json) → String → List String
  | [], _ => []
  | (key, value) :: rest, pre =>
    extractFieldValue key value pre ++ extractFromFields rest pre

/-- One iteration of the dict loop: emit a long-enough string value as a
`"path: value"` line, recurse into dict/list values, skip other leaves. -/
def extractFieldValue (key : String) (value : Json) (pre : String) : List String :=
  let childPath := if pre = "" then key else pre ++ "." ++ key
  match value with
  | .str s => if s.length > 10 then [childPath ++ ": " ++ s] else []
  | .obj fs => extractTextFromObj (.obj fs) childPath
  | .arr its => extractTextFromObj (.arr its) childPath
  | _ => []

/-- The list loop `for i, item in enumerate(obj)` (index threaded). -/
def extractFromItems : List Json → String → Nat → List String
  | [], _, _ => []
  | item :: rest, pre, i =>
    extractTextFromObj item (pre ++ "[" ++ Nat.repr i ++ "]") ++
      extractFromItems rest pre (i + 1)

end

/-- Structural induction over `Json` with membership hypotheses for the two
container constructors. -/
theorem Json.inductionOn {P : Json → Prop}
    (hstr : ∀ s, P (.str s)) (hnum : ∀ n, P (.num n)) (hbool : ∀ b, P (.bool b))
    (hnull : P .null)
    (harr : ∀ items, (∀ x ∈ items, P x) → P (.arr items))
    (hobj : ∀ fields, (∀ kv ∈ fields, P kv.2) → P (.obj fields)) :
    ∀ j, P j
  | .str s => hstr s
  | .num n => hnum n
  | .bool b => hbool b
  | .null => hnull
  | .arr items =>
    harr items fun x hx =>
      have : sizeOf x < 1 + sizeOf items := by
        have := List.sizeOf_lt_of_mem hx
        omega
      Json.inductionOn hstr hnum hbool hnull harr hobj x
  | .obj fields =>
    hobj fields fun kv hkv =>
      have : sizeOf kv.2 < 1 + sizeOf fields := by
        have h1 := List.sizeOf_lt_of_mem hkv
        have h2 : sizeOf kv.2 < sizeOf kv := by
          obtain ⟨a, b⟩ := kv
          simp only [Prod.mk.sizeOf_spec]
          omega
        omega
      Json.inductionOn hstr hnum hbool hnull harr hobj kv.2
termination_by j => sizeOf j

/-! ### C6: claim-side and amended-spec flattening -/

mutual

/-- The flattening that the claim describes: a `"path: value"` line for
*every* string leaf of length > 10, whether it occurs as a dict value or as a
list element.  (Stated from the claim's words, for comparison with
`extractTextFromObj`.) -/
def claimFlatten : Json → String → List String
  | .str s, pre => if s.length > 10 then [pre ++ ": " ++ s] else []
  | .obj fields, pre => claimFlattenFields fields pre
  | .arr items, pre => claimFlattenItems items pre 0
  | _, _ => []

/-- Claim-side walk of dict fields. -/
def claimFlattenFields : List (String × Json) → String → List String
  | [], _ => []
  | (key, value) :: rest, pre =>
    claimFlatten value (if pre = "" then key else pre ++ "." ++ key) ++
      claimFlattenFields rest pre

/-- Claim-side walk of list items. -/
def claimFlattenItems : List Json → String → Nat → List String
  | [], _, _ => []
  | item :: rest, pre, i =>
    claimFlatten item (pre ++ "[" ++ Nat.repr i ++ "]") ++
      claimFlattenItems rest pre (i + 1)

end

mutual

/-- Amended-spec collection: the `(path, value)` pairs of exactly those string
values of length > 10 that occur as *dict field values* (string list elements
are never collected). -/
def fieldStringLeaves : Json → String → List (String × String)
  | .obj fields, pre => fieldStringLeavesFields fields pre
  | .arr items, pre => fieldStringLeavesItems items pre 0
  | _, _ => []

/-- Pair collection over dict fields. -/
def fieldStringLeavesFields : List (String × Json) → String → List (String × String)
  | [], _ => []
  | (key, value) :: rest, pre =>
    fieldStringLeafValue key value pre ++ fieldStringLeavesFields rest pre

/-- Pair collection for one dict field. -/
def fieldStringLeafValue (key : String) (value : Json) (pre : String) :
    List (String × String) :=
  let childPath := if pre = "" then key else pre ++ "." ++ key
  match value with
  | .str s => if s.length > 10 then [(childPath, s)] else []
  | .obj fs => fieldStringLeaves (.obj fs) childPath
  | .arr its => fieldStringLeaves (.arr its) childPath
  | _ => []

/-- Pair collection over list items. -/
def fieldStringLeavesItems : List Json → String → Nat → List (String × String)
  | [], _, _ => []
  | item :: rest, pre, i =>
    fieldStringLeaves item (pre ++ "[" ++ Nat.repr i ++ "]") ++
      fieldStringLeavesItems rest pre (i + 1)

end

theorem extractFromFields_eq_leaves (fields : List (String × Json)) (pre : String)
    (ih : ∀ kv ∈ fields, ∀ p, extractTextFromObj kv.2 p =
      (fieldStringLeaves kv.2 p).map fun pv => pv.1 ++ ": " ++ pv.2) :
    extractFromFields fields pre =
      (fieldStringLeavesFields fields pre).map fun pv => pv.1 ++ ": " ++ pv.2 := by
  induction fields with
  | nil => simp [extractFromFields, fieldStringLeavesFields]
  | cons kv rest ihl =>
    obtain ⟨key, value⟩ := kv
    have htail := ihl fun x hx => ih x (List.mem_cons_of_mem _ hx)
    have hhead := ih (key, value) (List.mem_cons_self _ _)
    rw [extractFromFields, fieldStringLeavesFields, List.map_append, htail]
    congr 1
    cases value with
    | str s =>
      by_cases hs : s.length > 10 <;>
        simp [extractFieldValue, fieldStringLeafValue, hs]
    | obj fs =>
      rw [extractFieldValue, fieldStringLeafValue]
      exact hhead _
    | arr its =>
      rw [extractFieldValue, fieldStringLeafValue]
      exact hhead _
    | num n => simp [extractFieldValue, fieldStringLeafValue]
    | bool b => simp [extractFieldValue, fieldStringLeafValue]
    | null => simp [extractFieldValue, fieldStringLeafValue]

theorem extractFromItems_eq_leaves (items : List Json) (pre : String)
    (ih : ∀ x ∈ items, ∀ p, extractTextFromObj x p =
      (fieldStringLeaves x p).map fun pv => pv.1 ++ ": " ++ pv.2) :
    ∀ i, extractFromItems items pre i =
      (fieldStringLeavesItems items pre i).map fun pv => pv.1 ++ ": " ++ pv.2 := by
  induction items with
  | nil => intro i; simp [extractFromItems, fieldStringLeavesItems]
  | cons item rest ihl =>
    intro i
    have htail := ihl fun x hx => ih x (List.mem_cons_of_mem _ hx)
    have hhead := ih item (List.mem_cons_self _ _)
    rw [extractFromItems, fieldStringLeavesItems, List.map_append, htail (i + 1), hhead]

theorem extractTextFromObj_eq_fieldStringLeaves (j : Json) :
    ∀ pre, extractTextFromObj j pre =
      (fieldStringLeaves j pre).map fun pv => pv.1 ++ ": " ++ pv.2 := by
  induction j using Json.inductionOn with
  | hstr s => intro pre; simp [extractTextFromObj, fieldStringLeaves]
  | hnum n => intro pre; simp [extractTextFromObj, fieldStringLeaves]
  | hbool b => intro pre; simp [extractTextFromObj, fieldStringLeaves]
  | hnull => intro pre; simp [extractTextFromObj, fieldStringLeaves]
  | harr items ih =>
    intro pre
    simp only [extractTextFromObj, fieldStringLeaves]
    exact extractFromItems_eq_leaves items pre ih 0
  | hobj fields ih =>
    intro pre
    simp only [extractTextFromObj, fieldStringLeaves]
    exact extractFromFields_eq_leaves fields pre ih

theorem fieldStringLeavesFields_long (fields : List (String × Json)) (pre : String)
    (ih : ∀ kv ∈ fields, ∀ p pv, pv ∈ fieldStringLeaves kv.2 p → 10 < pv.2.length) :
    ∀ pv ∈ fieldStringLeavesFields fields pre, 10 < pv.2.length := by
  induction fields with
  | nil => simp [fieldStringLeavesFields]
  | cons kv rest ihl =>
    obtain ⟨key, value⟩ := kv
    intro pv hpv
    rw [fieldStringLeavesFields] at hpv
    rcases List.mem_append.mp hpv with h | h
    · cases value with
      | str s =>
        rw [fieldStringLeafValue] at h
        by_cases hs : s.length > 10
        · simp only [hs, if_true, List.mem_singleton] at h
          subst h
          exact hs
        · simp [hs] at h
      | obj fs =>
        rw [fieldStringLeafValue] at h
        exact ih (key, .obj fs) (List.mem_cons_self _ _) _ pv h
      | arr its =>
        rw [fieldStringLeafValue] at h
        exact ih (key, .arr its) (List.mem_cons_self _ _) _ pv h
      | num n => simp [fieldStringLeafValue] at h
      | bool b => simp [fieldStringLeafValue] at h
      | null => simp [fieldStringLeafValue] at h
    · exact ihl (fun x hx => ih x (List.mem_cons_of_mem _ hx)) pv h

theorem fieldStringLeavesItems_long (items : List Json) (pre : String)
    (ih : ∀ x ∈ items, ∀ p pv, pv ∈ fieldStringLeaves x p → 10 < pv.2.length) :
    ∀ i, ∀ pv ∈ fieldStringLeavesItems items pre i, 10 < pv.2.length := by
  induction items with
  | nil => simp [fieldStringLeavesItems]
  | cons item rest ihl =>
    intro i pv hpv
    rw [fieldStringLeavesItems] at hpv
    rcases List.mem_append.mp hpv with h | h
    · exact ih item (List.mem_cons_self _ _) _ pv h
    · exact ihl (fun x hx => ih x (List.mem_cons_of_mem _ hx)) (i + 1) pv h

theorem fieldStringLeaves_long (j : Json) :
    ∀ pre pv, pv ∈ fieldStringLeaves j pre → 10 < pv.2.length := by
  induction j using Json.inductionOn with
  | hstr s => simp [fieldStringLeaves]
  | hnum n => simp [fieldStringLeaves]
  | hbool b => simp [fieldStringLeaves]
  | hnull => simp [fieldStringLeaves]
  | harr items ih =>
    intro pre pv hpv
    rw [fieldStringLeaves] at hpv
    exact fieldStringLeavesItems_long items pre ih 0 pv hpv
  | hobj fields ih =>
    intro pre pv hpv
    rw [fieldStringLeaves] at hpv
    exact fieldStringLeavesFields_long fields pre ih pv hpv

/-- C6 counterexample: the claim says flattening emits a `"path: value"` line
for *every* string leaf of length > 10, including string elements of
sequences — but `extract_text_from_obj` emits nothing for a 24-character
string sitting inside a list, because a list element that is a string matches
neither `isinstance` branch of the function. -/
theorem flatten_list_string_counterexample :
    extractTextFromObj
        (Json.obj [("items", Json.arr [Json.str "a very long string value"])]) "" = [] ∧
    claimFlatten
        (Json.obj [("items", Json.arr [Json.str "a very long string value"])]) "" =
      ["items[0]: a very long string value"] ∧
    extractTextFromObj
        (Json.obj [("items", Json.arr [Json.str "a very long string value"])]) "" ≠
      claimFlatten
        (Json.obj [("items", Json.arr [Json.str "a very long string value"])]) "" := by
  refine ⟨?_, ?_, ?_⟩
  · simp [extractTextFromObj, extractFromFields, extractFieldValue, extractFromItems]
  · simp [claimFlatten, claimFlattenFields, claimFlattenItems]
    decide
  · simp [extractTextFromObj, extractFromFields, extractFieldValue, extractFromItems,
      claimFlatten, claimFlattenFields, claimFlattenItems]
    decide

/-- C6 amended: flattening emits a `"path: value"` line exactly for every
string value of length > 10 occurring as a *dict field value* (recursively
through dicts and lists); string elements of sequences and non-string leaves
are never emitted, and every emitted value has length > 10. -/
theorem flatten_emits_long_dict_field_strings (j : Json) (pre : String) :
    extractTextFromObj j pre =
      ((fieldStringLeaves j pre).map fun pv => pv.1 ++ ": " ++ pv.2) ∧
    ∀ pv ∈ fieldStringLeaves j pre, 10 < pv.2.length :=
  ⟨extractTextFromObj_eq_fieldStringLeaves j pre, fieldStringLeaves_long j pre⟩

/-- Witness for C6 (amended): a concrete dict field of length 24 is collected
and is indeed longer than 10. -/
theorem flatten_emits_long_dict_field_strings_witness :
    10 < ("note", ("a very long string value" : String)).2.length :=
  (flatten_emits_long_dict_field_strings
      (Json.obj [("note", Json.str "a very long string value")]) "").2
    ("note", "a very long string value")
    (by
      simp only [fieldStringLeaves, fieldStringLeavesFields, fieldStringLeafValue]
      decide)

/-! ## Document chunkers (`app/services/document_processor.py`)

The text splitter (`RecursiveCharacterTextSplitter.split_text`, an external
library) is a function parameter `split`; the PDF reader's per-page extracted
texts and the DOCX paragraph texts are list parameters.  The running
`chunk_index` / final `total_chunks` metadata rewrites of the source's
accumulating loops are expressed as a positional post-pass over the same
list, which computes the same values. -/

/-- A produced document chunk (the `DocumentChunk` dataclass). -/
structure Chunk where
  id : String
  content : String
  metadata : Json
  deriving Repr

/-- Python dict merge `{**base, k1: v1, ...}`. -/
def mergeMeta (base adds : List (String × Json)) : List (String × Json) :=
  adds.foldl (fun acc kv => Json.setField acc kv.1 kv.2) base

/-- Model of `DocumentProcessor.process_text` (lines 56-91). -/
def processText (split : String → List String) (text documentId : String)
    (metadata : List (String × Json)) : List Chunk :=
  if pyStrip text.data = [] then []
  else
    let chunks := split text
    chunks.enum.map fun ic =>
      { id := documentId ++ "_chunk_" ++ Nat.repr ic.1
        content := ic.2
        metadata := Json.obj (mergeMeta metadata
          [("document_id", .str documentId), ("chunk_index", .num ic.1),
           ("total_chunks", .num chunks.length)]) }

/-- Model of `DocumentProcessor.process_pdf` (lines 93-146): pages are chunked
independently (blank pages skipped), ids carry the 1-based page number and the
per-page chunk index; `chunk_index` is the global running index and
`total_chunks` is set for all chunks after the loop. -/
def processPdf (split : String → List String) (pages : List String)
    (documentId : String) (metadata : List (String × Json)) : List Chunk :=
  let pieces : List Chunk := pages.enum.flatMap fun pt =>
    if pyStrip pt.2.data = [] then []
    else
      (split pt.2).enum.map fun ic =>
        { id := documentId ++ "_page" ++ Nat.repr (pt.1 + 1) ++ "_chunk_" ++ Nat.repr ic.1
          content := ic.2
          metadata := Json.obj (mergeMeta metadata
            [("page_number", .num (pt.1 + 1)), ("total_pages", .num pages.length),
             ("document_id", .str documentId)]) }
  pieces.enum.map fun gc =>
    ({ gc.2 with
       metadata :=
         match gc.2.metadata with
         | .obj fs =>
           Json.obj (Json.setField (Json.setField fs "chunk_index" (.num gc.1))
             "total_chunks" (.num pieces.length))
         | m => m } : Chunk)

/-- Model of `DocumentProcessor.process_docx` (lines 148-179): non-blank paragraphs are
joined with blank lines and the result processed as plain text. -/
def processDocx (split : String → List String) (paragraphs : List String)
    (documentId : String) (metadata : List (String × Json)) : List Chunk :=
  let fullText := String.intercalate "\n\n"
    (paragraphs.filter fun p => !(pyStrip p.data).isEmpty)
  if pyStrip fullText.data = [] then []
  else processText split fullText documentId metadata

/-- Model of `DocumentProcessor.process_json` (lines 181-239): an array is flattened
item by item, each non-empty item is chunked under the intermediate id
`{documentId}_item{idx}` and the chunk ids are then renumbered into the single
contiguous space `{documentId}_chunk_{runningIndex}`; a single object is
flattened and processed as plain text. -/
def processJson (split : String → List String) (data : Json)
    (documentId : String) (metadata : List (String × Json)) : List Chunk :=
  match data with
  | .arr items =>
    let pieces := items.enum.flatMap fun it =>
      let itemTexts := extractTextFromObj it.2 ""
      if itemTexts.isEmpty then []
      else
        processText split (String.intercalate "\n" itemTexts)
          (documentId ++ "_item" ++ Nat.repr it.1)
          (Json.setField metadata "json_index" (.num it.1))
    pieces.enum.map fun gc =>
      ({ gc.2 with
         id := documentId ++ "_chunk_" ++ Nat.repr gc.1
         metadata :=
           match gc.2.metadata with
           | .obj fs => Json.obj (Json.setField fs "total_chunks" (.num pieces.length))
           | m => m } : Chunk)
  | _ =>
    processText split (String.intercalate "\n" (extractTextFromObj data ""))
      documentId metadata

/-! ### C7: chunk-id uniqueness -/

theorem string_append_left_cancel {s a b : String} (h : s ++ a = s ++ b) : a = b := by
  apply String.ext
  have hd : s.data ++ a.data = s.data ++ b.data := by
    rw [← String.data_append, ← String.data_append, h]
  exact List.append_cancel_left hd

/-- Appending distinct decimal numerals to a fixed head yields distinct strings. -/
theorem appendRepr_injective (p : String) :
    Function.Injective fun i => p ++ Nat.repr i := by
  intro i j h
  exact natRepr_injective (string_append_left_cancel h)

/-- Mapping an injective function of the index over `l.enum` yields distinct
results. -/
theorem nodup_enum_map_comp (l : List α) (f : Nat → β) (hf : Function.Injective f) :
    (l.enum.map fun p => f p.1).Nodup := by
  have h1 : (l.enum.map fun p => f p.1) = (l.enum.map Prod.fst).map f := by
    rw [List.map_map]
    rfl
  rw [h1, List.enum_map_fst]
  exact (List.nodup_range _).map hf

/-- The decimal numeral contains no underscore. -/
theorem underscore_not_mem_repr_data (n : Nat) : '_' ∉ (Nat.repr n).data := by
  rw [repr_eq_decDigits]
  exact underscore_not_mem_decDigits

/-- Uniqueness of the `(page, index)` decomposition of a paginated chunk id. -/
theorem pageChunkId_inj {docId : String} {p i q j : Nat}
    (h : docId ++ "_page" ++ Nat.repr p ++ "_chunk_" ++ Nat.repr i =
         docId ++ "_page" ++ Nat.repr q ++ "_chunk_" ++ Nat.repr j) :
    p = q ∧ i = j := by
  rw [String.append_assoc (docId ++ "_page") (Nat.repr p) "_chunk_",
    String.append_assoc (docId ++ "_page"),
    String.append_assoc (docId ++ "_page") (Nat.repr q) "_chunk_",
    String.append_assoc (docId ++ "_page")] at h
  have h2 := string_append_left_cancel h
  have hd : (Nat.repr p).data ++ '_' :: ("chunk_".data ++ (Nat.repr i).data) =
      (Nat.repr q).data ++ '_' :: ("chunk_".data ++ (Nat.repr j).data) := by
    have := congrArg String.data h2
    simpa [String.data_append] using this
  have hsplit := @sep_split_unique '_' _ _ _ _
    (underscore_not_mem_repr_data p) (underscore_not_mem_repr_data q) hd
  constructor
  · exact natRepr_injective (String.ext hsplit.1)
  · exact natRepr_injective (String.ext (List.append_cancel_left hsplit.2))

theorem processText_ids_nodup (split : String → List String) (text docId : String)
    (meta : List (String × Json)) :
    ((processText split text docId meta).map (·.id)).Nodup := by
  unfold processText
  by_cases h : pyStrip text.data = []
  · simp [h]
  · simp only [h, if_false, List.map_map]
    exact nodup_enum_map_comp _ _ (appendRepr_injective (docId ++ "_chunk_"))

theorem ids_of_enum_metadata_update (l : List Chunk) (f : Nat × Chunk → Json) :
    ((l.enum.map fun gc => ({ gc.2 with metadata := f gc } : Chunk)).map (·.id)) =
      l.map (·.id) := by
  rw [List.map_map]
  have h1 : ((fun c : Chunk => c.id) ∘ fun gc : Nat × Chunk =>
      ({ gc.2 with metadata := f gc } : Chunk)) =
      ((fun c : Chunk => c.id) ∘ Prod.snd) := rfl
  rw [h1, ← List.map_map, List.enum_map_snd]

theorem processPdf_ids_nodup (split : String → List String) (pages : List String)
    (docId : String) (meta : List (String × Json)) :
    ((processPdf split pages docId meta).map (·.id)).Nodup := by
  unfold processPdf
  rw [ids_of_enum_metadata_update]
  rw [List.map_flatMap]
  rw [List.nodup_flatMap]
  constructor
  · intro pt _
    by_cases hb : pyStrip pt.2.data = []
    · simp [hb]
    · simp only [hb, if_false, List.map_map]
      exact nodup_enum_map_comp _ _
        (appendRepr_injective (docId ++ "_page" ++ Nat.repr (pt.1 + 1) ++ "_chunk_"))
  · have hfst : pages.enum.Pairwise fun a b => a.1 ≠ b.1 :=
      List.pairwise_map.mp (List.nodup_enum_map_fst pages)
    refine hfst.imp ?_
    intro a b hne
    intro x hxa hxb
    by_cases ha : pyStrip a.2.data = []
    · simp [ha] at hxa
    by_cases hb : pyStrip b.2.data = []
    · simp [hb] at hxb
    simp only [ha, hb, if_false, List.map_map, List.mem_map] at hxa hxb
    obtain ⟨ic, _, hxa'⟩ := hxa
    obtain ⟨jc, _, hxb'⟩ := hxb
    have heq := hxa'.trans hxb'.symm
    have := (pageChunkId_inj (by simpa using heq)).1
    omega

theorem processDocx_ids_nodup (split : String → List String) (paragraphs : List String)
    (docId : String) (meta : List (String × Json)) :
    ((processDocx split paragraphs docId meta).map (·.id)).Nodup := by
  unfold processDocx
  by_cases h : pyStrip (String.intercalate "\n\n"
      (paragraphs.filter fun p => !(pyStrip p.data).isEmpty)).data = []
  · simp [h]
  · simp only [h, if_false]
    exact processText_ids_nodup _ _ _ _

theorem processJson_ids_nodup (split : String → List String) (data : Json)
    (docId : String) (meta : List (String × Json)) :
    ((processJson split data docId meta).map (·.id)).Nodup := by
  cases data with
  | arr items =>
    simp only [processJson, List.map_map]
    exact nodup_enum_map_comp _ _ (appendRepr_injective (docId ++ "_chunk_"))
  | str s => exact processText_ids_nodup _ _ _ _
  | num n => exact processText_ids_nodup _ _ _ _
  | bool b => exact processText_ids_nodup _ _ _ _
  | null => exact processText_ids_nodup _ _ _ _
  | obj fields => exact processText_ids_nodup _ _ _ _

/-- C7: for a single document processed through any supported format path —
plain text, PDF, DOCX, or JSON (object or array) — the produced chunk ids are
pairwise distinct, for every splitter output. -/
theorem document_chunk_ids_distinct (split : String → List String)
    (text docId : String) (meta : List (String × Json))
    (pages paragraphs : List String) (data : Json) :
    ((processText split text docId meta).map (·.id)).Nodup ∧
    ((processPdf split pages docId meta).map (·.id)).Nodup ∧
    ((processDocx split paragraphs docId meta).map (·.id)).Nodup ∧
    ((processJson split data docId meta).map (·.id)).Nodup :=
  ⟨processText_ids_nodup split text docId meta,
   processPdf_ids_nodup split pages docId meta,
   processDocx_ids_nodup split paragraphs docId meta,
   processJson_ids_nodup split data docId meta⟩

/-! ## JSON serialization with sorted keys

`json.dumps(message, sort_keys=True)` — the canonical form hashed for the
cache key (`rag_service.py`, line 58).  `ensure_ascii` escaping is modelled
with `\uXXXX` escapes (surrogate pairs above the BMP); the hash consuming this
string is itself a function parameter, so only the shape of the
serialization matters to the theorems. -/

/-- Lower-case hex digit. -/
def hexDigitChar (k : Nat) : Char :=
  if k < 10 then Char.ofNat (48 + k) else Char.ofNat (87 + k)

/-- A `\uXXXX` escape for a BMP code unit. -/
def uEsc4 (n : Nat) : List Char :=
  ['\\', 'u', hexDigitChar (n / 4096 % 16), hexDigitChar (n / 256 % 16),
   hexDigitChar (n / 16 % 16), hexDigitChar (n % 16)]

/-- JSON string escaping as produced by `json.dumps` with `ensure_ascii`. -/
def escapeChar (c : Char) : List Char :=
  if c = '"' then ['\\', '"']
  else if c = '\\' then ['\\', '\\']
  else if c = '\n' then ['\\', 'n']
  else if c = '\t' then ['\\', 't']
  else if c = '\r' then ['\\', 'r']
  else if c = '\x08' then ['\\', 'b']
  else if c = '\x0c' then ['\\', 'f']
  else if c.toNat < 0x20 then uEsc4 c.toNat
  else if c.toNat ≤ 0x7e then [c]
  else if c.toNat < 0x10000 then uEsc4 c.toNat
  else
    uEsc4 (0xd800 + (c.toNat - 0x10000) / 0x400) ++
      uEsc4 (0xdc00 + (c.toNat - 0x10000) % 0x400)

/-- A serialized JSON string literal. -/
def dumpStr (s : String) : String :=
  "\"" ++ String.mk (s.data.flatMap escapeChar) ++ "\""

/-- Fuel-indexed body of `json.dumps(·, sort_keys=True)` with the default
`", "`/`": "` separators; the wrapper `jsonDumpsSorted` supplies ample fuel. -/
def dumpsVal : Nat → Json → String
  | 0, _ => ""
  | fuel + 1, j =>
    match j with
    | .str s => dumpStr s
    | .num n => n.repr
    | .bool b => if b then "true" else "false"
    | .null => "null"
    | .arr items =>
      "[" ++ String.intercalate ", " (items.map (dumpsVal fuel)) ++ "]"
    | .obj fields =>
      "\x7b" ++ String.intercalate ", "
        ((fields.mergeSort fun a b => a.1 ≤ b.1).map fun kv =>
          dumpStr kv.1 ++ ": " ++ dumpsVal fuel kv.2) ++ "\x7d"

mutual

/-- Executable structural size of a `Json` value, used as dumps fuel. -/
def jsonFuel : Json → Nat
  | .arr items => 1 + jsonFuelList items
  | .obj fields => 1 + jsonFuelFields fields
  | _ => 1

/-- Size of a list of values. -/
def jsonFuelList : List Json → Nat
  | [] => 0
  | x :: rest => 1 + jsonFuel x + jsonFuelList rest

/-- Size of a field list. -/
def jsonFuelFields : List (String × Json) → Nat
  | [] => 0
  | kv :: rest => 1 + jsonFuel kv.2 + jsonFuelFields rest

end

/-- Model of `json.dumps(·, sort_keys=True)`. -/
def jsonDumpsSorted (j : Json) : String :=
  dumpsVal (jsonFuel j) j

/-! ## The query orchestrator (`RAGService.query`, `app/services/rag_service.py`)

State (`SysState`) carries the Redis keyspace and the uuid4 supply; remote
services are the function-valued fields of `Deps`.  Floats that are only
carried, never computed on (similarity scores, temperatures), are modelled as
rationals. -/

/-- The tenant (`app/models/tenant.py`): the orchestrator uses `str(id)` and
`slug`, so `id` is carried in its string form. -/
structure Tenant where
  id : String
  slug : String

/-- An assistant configuration (`app/models/tenant.py`, lines 111-135). -/
structure Assistant where
  id : String
  name : String
  system_prompt : String
  evaluation_prompt : Option String
  model : String
  temperature : Rat

/-- Model of the `SearchResult` dataclass of `app/services/vector_store.py`. -/
structure SearchResult where
  id : String
  score : Rat
  content : String
  metadata : Json

/-- The payload returned by `LLMService.query` (only `response` is read by
the orchestrator). -/
structure LlmResult where
  response : Json
  raw_response : String
  tokens_used : Nat
  model_used : String

/-- The remote-service environment of a query: the SHA-256 hex digest, the
availability of the Redis connection for the lookup `GET` and the store
`SETEX`, the Pinecone search (`tenant_slug`, `query`, `top_k`) and the LLM
call (`message`, `rag_chunks`, `instructions`, `system_prompt`, `model`,
`temperature`).  `Except.error` models a raised exception. -/
structure Deps where
  sha256hex : String → String
  cacheGetUp : Bool
  cacheSetUp : Bool
  search : String → String → Nat → Except String (List SearchResult)
  llm : Json → List SearchResult → Option String → Option String →
    Option String → Option Rat → Except String LlmResult

/-- Process-wide mutable state: the Redis keyspace (dumps/loads modelled as
the identity on the `Json` domain, the per-entry TTL not modelled) and the
uuid4 fresh-supply counter. -/
structure SysState where
  cache : List (String × Json)
  nextUuid : Nat

/-- Model of `str(uuid4())` as a fresh-supply draw. -/
def pyUuid (n : Nat) : String :=
  "uuid-" ++ Nat.repr n

/-- Model of `CacheService._generate_cache_key` (`cache_service.py`, lines 22-39):
`f"{prefix}:{tenant_id}:{content_hash}{cache_key_suffix}"` with prefix
`"query"`. -/
def generateCacheKey (tenantId contentHash suffix : String) : String :=
  "query" ++ ":" ++ tenantId ++ ":" ++ contentHash ++ suffix

/-- Model of `CacheService.get_cached_result` (lines 41-64): a Redis `GET` (which
raises if the backend is down) followed by `json.loads` of the hit. -/
def cacheGetResult (deps : Deps) (st : SysState)
    (tenantId contentHash suffix : String) : Except String (Option Json) :=
  if deps.cacheGetUp then
    .ok (Json.lookupField st.cache (generateCacheKey tenantId contentHash suffix))
  else .error "ConnectionError: redis get"

/-- Model of `CacheService.cache_result` (lines 66-93): a Redis `SETEX` (which raises
if the backend is down) of the dumped result. -/
def cacheSetResult (deps : Deps) (st : SysState)
    (tenantId contentHash : String) (result : Json) (suffix : String) :
    Except String SysState :=
  if deps.cacheSetUp then
    .ok { st with
          cache := Json.setField st.cache
            (generateCacheKey tenantId contentHash suffix) result }
  else .error "ConnectionError: redis setex"

/-- Line 58 of `rag_service.py`: `json.dumps(message, sort_keys=True)` for
structured messages, `str(message)` otherwise. -/
def canonicalMessageStr : Json → String
  | .obj fields => jsonDumpsSorted (.obj fields)
  | .arr items => jsonDumpsSorted (.arr items)
  | .str s => s
  | .num n => n.repr
  | .bool b => if b then "True" else "False"
  | .null => "None"

/-- Line 59 of `rag_service.py`: `str(assistant.id) if assistant else "default"`. -/
def assistantIdStr : Option Assistant → String
  | some a => a.id
  | none => "default"

/-- The cache key a query uses, assembled from the pieces computed at
`rag_service.py` lines 58-63 and formatted by `_generate_cache_key`. -/
def ragCacheKey (deps : Deps) (tenant : Tenant) (message : Json)
    (assistant : Option Assistant) : String :=
  generateCacheKey tenant.id (pyTake (deps.sha256hex (canonicalMessageStr message)) 32)
    (":" ++ assistantIdStr assistant)

/-- The `questions` loop of `_extract_search_text` (lines 153-157): the
`question` field of each dict entry is appended unchecked. -/
def questionEntryParts : List Json → Except String (List String)
  | [] => .ok []
  | q :: rest =>
    match q with
    | .obj fields =>
      match Json.lookupField fields "question" with
      | some (.str s) => do
        let tl ← questionEntryParts rest
        pure (s :: tl)
      | some _ => .error "TypeError: sequence item: expected str instance"
      | none => questionEntryParts rest
    | _ => questionEntryParts rest

/-- The list branch of `_extract_search_text` (lines 159-164). -/
def listEntryParts : List Json → Except String (List String)
  | [] => .ok []
  | item :: rest =>
    match item with
    | .str s => do
      let tl ← listEntryParts rest
      pure (s :: tl)
    | .obj fields =>
      match Json.lookupField fields "question" with
      | some (.str s) => do
        let tl ← listEntryParts rest
        pure (s :: tl)
      | some _ => .error "TypeError: sequence item: expected str instance"
      | none => listEntryParts rest
    | _ => listEntryParts rest

/-- Model of `RAGService._extract_search_text` (lines 139-167).  The `Except.error`
case models the `TypeError` raised by `" ".join` when a collected
`questions[i]["question"]` or list-item `item["question"]` value is not a
string (the source appends such values without an `isinstance` check). -/
def extractSearchText (data : Json) (maxLength : Nat) : Except String String :=
  match data with
  | .str s => .ok (pyTake s maxLength)
  | _ =>
    let partsE : Except String (List String) :=
      match data with
      | .obj _ =>
        let priorityParts :=
          ["query", "question", "text", "content", "message", "search"].filterMap
            fun k =>
              match data.jlookup k with
              | some (.str s) => some s
              | _ => none
        match data.jlookup "questions" with
        | some (.arr qs) => do
          let qparts ← questionEntryParts (qs.take 3)
          pure (priorityParts ++ qparts)
        | _ => .ok priorityParts
      | .arr items => listEntryParts (items.take 3)
      | _ => .ok []
    match partsE with
    | .error e => .error e
    | .ok parts =>
      let result := String.intercalate " " parts
      .ok (if result = "" then "general query" else pyTake result maxLength)

/-- The knowledge-base search query derivation (`rag_service.py`, lines
78-85): an explicitly supplied truthy `search_query` wins, a plain-string
message contributes its first 500 characters, and structured messages go
through `_extract_search_text`. -/
def deriveKbQuery (searchQuery : Option String) (message : Json) :
    Except String String :=
  match searchQuery with
  | some sq =>
    if sq ≠ "" then .ok sq
    else
      match message with
      | .str s => .ok (pyTake s 500)
      | _ => extractSearchText message 500
  | none =>
    match message with
    | .str s => .ok (pyTake s 500)
    | _ => extractSearchText message 500

/-- The combined instructions (`rag_service.py`, lines 97-104): a non-empty
assistant `evaluation_prompt` is prepended to non-empty caller instructions,
or used alone. -/
def combineInstructions (assistant : Option Assistant)
    (instructions : Option String) : Option String :=
  match assistant with
  | some a =>
    match a.evaluation_prompt with
    | some ep =>
      if ep ≠ "" then
        match instructions with
        | some i => if i ≠ "" then some (ep ++ "\n\n" ++ i) else some ep
        | none => some ep
      else instructions
    | none => instructions
  | none => instructions

/-- The cache-hit mutation (`rag_service.py`, lines 72-76):
`cached["cached"] = True`, a fresh `query_id`, a fresh
`processing_time_ms`. -/
def hitMutate (fs : List (String × Json)) (queryId : String) (elapsedMs : Nat) : Json :=
  .obj (Json.setField (Json.setField (Json.setField fs
    "cached" (.bool true)) "query_id" (.str queryId))
    "processing_time_ms" (.num elapsedMs))

/-- The freshly computed result dict (`rag_service.py`, lines 117-127),
field for field in source order — note the key `"chunks_ids"`. -/
def freshResult (queryId : String) (tenant : Tenant) (assistant : Option Assistant)
    (response : Json) (ragChunks : List SearchResult) (elapsedMs : Nat) : Json :=
  .obj [
    ("query_id", .str queryId),
    ("tenant_id", .str tenant.id),
    ("assistant_id", match assistant with | some a => .str a.id | none => .null),
    ("assistant_name", match assistant with | some a => .str a.name | none => .null),
    ("response", response),
    ("knowledge_chunks_used", .num ragChunks.length),
    ("chunks_ids", .arr (ragChunks.map fun c => .str c.id)),
    ("cached", .bool false),
    ("processing_time_ms", .num elapsedMs)]

/-- The cache-miss tail of `RAGService.query` (lines 78-137). -/
def ragQueryFresh (deps : Deps) (st1 : SysState) (tenant : Tenant) (message : Json)
    (instructions searchQuery : Option String) (topK : Nat)
    (assistant : Option Assistant) (elapsedMs : Nat)
    (queryId contentHash cacheSuffix : String) :
    Except String (Json × SysState) :=
  match deriveKbQuery searchQuery message with
  | .error e => .error e
  | .ok kbQuery =>
    match deps.search tenant.slug kbQuery topK with
    | .error e => .error e
    | .ok ragChunks =>
      match deps.llm message ragChunks (combineInstructions assistant instructions)
          (assistant.map (·.system_prompt)) (assistant.map (·.model))
          (assistant.map (·.temperature)) with
      | .error e => .error e
      | .ok llmResult =>
        let result := freshResult queryId tenant assistant llmResult.response
          ragChunks elapsedMs
        match cacheSetResult deps st1 tenant.id contentHash result cacheSuffix with
        | .error e => .error e
        | .ok st2 => .ok (result, st2)

/-- Model of `RAGService.query` (lines 31-137): mint a query id, build the cache key,
consult the cache (a truthy parsed hit is returned after the hit mutation),
otherwise derive the search query, retrieve, complete, assemble the result
and store it.  `elapsedMs` stands for the wall-clock measurement at whichever
return point executes. -/
def ragQuery (deps : Deps) (st : SysState) (tenant : Tenant) (message : Json)
    (instructions searchQuery : Option String) (topK : Nat)
    (assistant : Option Assistant) (elapsedMs : Nat) :
    Except String (Json × SysState) :=
  let queryId := pyUuid st.nextUuid
  let st1 : SysState := { st with nextUuid := st.nextUuid + 1 }
  let contentHash := pyTake (deps.sha256hex (canonicalMessageStr message)) 32
  let cacheSuffix := ":" ++ assistantIdStr assistant
  match cacheGetResult deps st1 tenant.id contentHash cacheSuffix with
  | .error e => .error e
  | .ok got =>
    match got with
    | some cachedVal =>
      if cachedVal.truthy then
        match cachedVal with
        | .obj fs => .ok (hitMutate fs queryId elapsedMs, st1)
        | _ => .error "TypeError: item assignment on non-dict"
      else
        ragQueryFresh deps st1 tenant message instructions searchQuery topK
          assistant elapsedMs queryId contentHash cacheSuffix
    | none =>
      ragQueryFresh deps st1 tenant message instructions searchQuery topK
        assistant elapsedMs queryId contentHash cacheSuffix


theorem lookupField_setField_self (l : List (String × Json)) (k : String) (v : Json) :
    Json.lookupField (Json.setField l k v) k = some v := by
  induction l with
  | nil => simp [Json.setField, Json.lookupField]
  | cons kv rest ih =>
    obtain ⟨k', v'⟩ := kv
    by_cases h : k' = k
    · simp [Json.setField, Json.lookupField, h]
    · simp [Json.setField, Json.lookupField, h, ih]

theorem lookupField_setField_ne (l : List (String × Json)) {k k' : String} (v : Json)
    (h : k' ≠ k) :
    Json.lookupField (Json.setField l k v) k' = Json.lookupField l k' := by
  induction l with
  | nil => simp [Json.setField, Json.lookupField, Ne.symm h]
  | cons kv rest ih =>
    obtain ⟨k0, v0⟩ := kv
    by_cases h0 : k0 = k
    · subst h0
      simp [Json.setField, Json.lookupField, Ne.symm h]
    · simp only [Json.setField, h0, if_false]
      by_cases h1 : k0 = k'
      · simp [Json.lookupField, h1]
      · simp [Json.lookupField, h1, ih]

theorem hitMutate_lookup_response (fs : List (String × Json)) (qid : String) (e : Nat) :
    (hitMutate fs qid e).jlookup "response" = Json.lookupField fs "response" := by
  show Json.lookupField _ _ = _
  rw [lookupField_setField_ne _ _ (show ("response" : String) ≠ "processing_time_ms" by decide),
    lookupField_setField_ne _ _ (show ("response" : String) ≠ "query_id" by decide),
    lookupField_setField_ne _ _ (show ("response" : String) ≠ "cached" by decide)]

theorem hitMutate_lookup_cached (fs : List (String × Json)) (qid : String) (e : Nat) :
    (hitMutate fs qid e).jlookup "cached" = some (.bool true) := by
  show Json.lookupField _ _ = _
  rw [lookupField_setField_ne _ _ (show ("cached" : String) ≠ "processing_time_ms" by decide),
    lookupField_setField_ne _ _ (show ("cached" : String) ≠ "query_id" by decide),
    lookupField_setField_self]

theorem hitMutate_lookup_query_id (fs : List (String × Json)) (qid : String) (e : Nat) :
    (hitMutate fs qid e).jlookup "query_id" = some (.str qid) := by
  show Json.lookupField _ _ = _
  rw [lookupField_setField_ne _ _ (show ("query_id" : String) ≠ "processing_time_ms" by decide),
    lookupField_setField_self]

theorem hitMutate_lookup_ptm (fs : List (String × Json)) (qid : String) (e : Nat) :
    (hitMutate fs qid e).jlookup "processing_time_ms" = some (.num e) := by
  show Json.lookupField _ _ = _
  rw [lookupField_setField_self]

theorem ragCacheKey_eq (deps : Deps) (tenant : Tenant) (message : Json)
    (assistant : Option Assistant) :
    ragCacheKey deps tenant message assistant =
      generateCacheKey tenant.id
        (pyTake (deps.sha256hex (canonicalMessageStr message)) 32)
        (":" ++ assistantIdStr assistant) := rfl

theorem ragQueryFresh_ok_cases {deps : Deps} {st1 : SysState} {tenant : Tenant}
    {message : Json} {instructions searchQuery : Option String} {topK : Nat}
    {assistant : Option Assistant} {elapsedMs : Nat}
    {queryId contentHash cacheSuffix : String} {r : Json} {st' : SysState}
    (h : ragQueryFresh deps st1 tenant message instructions searchQuery topK
      assistant elapsedMs queryId contentHash cacheSuffix = .ok (r, st')) :
    ∃ kbQuery ragChunks llmResult,
      deriveKbQuery searchQuery message = .ok kbQuery ∧
      deps.search tenant.slug kbQuery topK = .ok ragChunks ∧
      deps.llm message ragChunks (combineInstructions assistant instructions)
        (assistant.map (·.system_prompt)) (assistant.map (·.model))
        (assistant.map (·.temperature)) = .ok llmResult ∧
      deps.cacheSetUp = true ∧
      r = freshResult queryId tenant assistant llmResult.response ragChunks elapsedMs ∧
      st'.cache = Json.setField st1.cache
        (generateCacheKey tenant.id contentHash cacheSuffix) r ∧
      st'.nextUuid = st1.nextUuid := by
  unfold ragQueryFresh at h
  split at h
  · exact absurd h (by simp)
  · rename_i kbQuery hkb
    split at h
    · exact absurd h (by simp)
    · rename_i ragChunks hsearch
      split at h
      · exact absurd h (by simp)
      · rename_i llmResult hllm
        unfold cacheSetResult at h
        by_cases hset : deps.cacheSetUp
        · simp only [hset, if_true, Except.ok.injEq, Prod.mk.injEq] at h
          refine ⟨kbQuery, ragChunks, llmResult, hkb, hsearch, hllm, hset, ?_, ?_, ?_⟩
          · exact h.1.symm
          · rw [← h.2, h.1]
          · rw [← h.2]
        · simp [hset] at h

theorem ragQuery_ok_cases {deps : Deps} {st : SysState} {tenant : Tenant}
    {message : Json} {instructions searchQuery : Option String} {topK : Nat}
    {assistant : Option Assistant} {elapsedMs : Nat} {r : Json} {st' : SysState}
    (h : ragQuery deps st tenant message instructions searchQuery topK assistant
      elapsedMs = .ok (r, st')) :
    deps.cacheGetUp = true ∧ st'.nextUuid = st.nextUuid + 1 ∧
    ((∃ fs, Json.lookupField st.cache (ragCacheKey deps tenant message assistant) =
          some (.obj fs) ∧
        (Json.obj fs).truthy = true ∧
        r = hitMutate fs (pyUuid st.nextUuid) elapsedMs ∧ st'.cache = st.cache) ∨
     (∃ kbQuery ragChunks llmResult,
        deriveKbQuery searchQuery message = .ok kbQuery ∧
        deps.search tenant.slug kbQuery topK = .ok ragChunks ∧
        deps.llm message ragChunks (combineInstructions assistant instructions)
          (assistant.map (·.system_prompt)) (assistant.map (·.model))
          (assistant.map (·.temperature)) = .ok llmResult ∧
        deps.cacheSetUp = true ∧
        r = freshResult (pyUuid st.nextUuid) tenant assistant llmResult.response
          ragChunks elapsedMs ∧
        st'.cache = Json.setField st.cache
          (ragCacheKey deps tenant message assistant) r)) := by
  rw [ragCacheKey_eq]
  unfold ragQuery at h
  unfold cacheGetResult at h
  by_cases hget : deps.cacheGetUp
  · simp only [hget, if_true] at h
    refine ⟨hget, ?_⟩
    cases hlook : Json.lookupField st.cache
        (generateCacheKey tenant.id
          (pyTake (deps.sha256hex (canonicalMessageStr message)) 32)
          (":" ++ assistantIdStr assistant)) with
    | none =>
      simp only [hlook] at h
      obtain ⟨kb, chunks, lr, h1, h2, h3, h4, h5, h6, h7⟩ := ragQueryFresh_ok_cases h
      exact ⟨by simpa using h7, Or.inr ⟨kb, chunks, lr, h1, h2, h3, h4, h5, by simpa using h6⟩⟩
    | some v =>
      simp only [hlook] at h
      by_cases htr : v.truthy
      · simp only [htr, if_true] at h
        cases v with
        | obj fs =>
          simp only [Except.ok.injEq, Prod.mk.injEq] at h
          exact ⟨by rw [← h.2], Or.inl ⟨fs, rfl, htr, h.1.symm, by rw [← h.2]⟩⟩
        | str s => exact absurd h (by simp)
        | num n => exact absurd h (by simp)
        | bool b => exact absurd h (by simp)
        | null => exact absurd h (by simp)
        | arr xs => exact absurd h (by simp)
      · simp only [htr, if_false] at h
        obtain ⟨kb, chunks, lr, h1, h2, h3, h4, h5, h6, h7⟩ := ragQueryFresh_ok_cases h
        exact ⟨by simpa using h7, Or.inr ⟨kb, chunks, lr, h1, h2, h3, h4, h5, by simpa using h6⟩⟩
  · simp [hget] at h

theorem pyUuid_injective : Function.Injective pyUuid :=
  appendRepr_injective "uuid-"

theorem ragQuery_hit_eq {deps : Deps} {st : SysState} {tenant : Tenant}
    {message : Json} {instructions searchQuery : Option String} {topK : Nat}
    {assistant : Option Assistant} {elapsedMs : Nat} {fs : List (String × Json)}
    (hget : deps.cacheGetUp = true)
    (hlook : Json.lookupField st.cache (ragCacheKey deps tenant message assistant) =
      some (.obj fs))
    (htr : (Json.obj fs).truthy = true) :
    ragQuery deps st tenant message instructions searchQuery topK assistant elapsedMs =
      .ok (hitMutate fs (pyUuid st.nextUuid) elapsedMs,
        { st with nextUuid := st.nextUuid + 1 }) := by
  rw [ragCacheKey_eq] at hlook
  unfold ragQuery cacheGetResult
  simp only [hget, if_true, hlook, htr]

/-- C2: after any successful call of `RAGService.query`, a second sequential
call with identical tenant, assistant and message succeeds from the cache and
returns a payload whose `response` field is identical to the first call's,
with `cached = true`, a freshly minted `query_id` different from the first
call's, and `processing_time_ms` measured fresh for the second call. -/
theorem query_cache_idempotence (deps : Deps) (st : SysState) (tenant : Tenant)
    (message : Json) (instructions searchQuery : Option String) (topK : Nat)
    (assistant : Option Assistant) (e1 e2 : Nat) (r1 : Json) (st1 : SysState)
    (h1 : ragQuery deps st tenant message instructions searchQuery topK assistant e1 =
      .ok (r1, st1)) :
    ∃ r2 st2,
      ragQuery deps st1 tenant message instructions searchQuery topK assistant e2 =
        .ok (r2, st2) ∧
      r2.jlookup "response" = r1.jlookup "response" ∧
      r2.jlookup "cached" = some (.bool true) ∧
      r2.jlookup "query_id" = some (.str (pyUuid st1.nextUuid)) ∧
      r2.jlookup "query_id" ≠ r1.jlookup "query_id" ∧
      r2.jlookup "processing_time_ms" = some (.num e2) := by
  obtain ⟨hget, hnext, hcase⟩ := ragQuery_ok_cases h1
  rcases hcase with ⟨fs, hlook, htr, hr1, hcache⟩ |
    ⟨kb, chunks, lr, hkb, hsearch, hllm, hset, hr1, hcache⟩
  · have hlook2 : Json.lookupField st1.cache
        (ragCacheKey deps tenant message assistant) = some (.obj fs) := by
      rw [hcache]; exact hlook
    refine ⟨_, _, ragQuery_hit_eq hget hlook2 htr, ?_, ?_, ?_, ?_, ?_⟩
    · rw [hitMutate_lookup_response, hr1, hitMutate_lookup_response]
    · exact hitMutate_lookup_cached fs _ _
    · exact hitMutate_lookup_query_id fs _ _
    · rw [hitMutate_lookup_query_id, hr1, hitMutate_lookup_query_id]
      intro hcontra
      simp only [Option.some.injEq, Json.str.injEq] at hcontra
      have := pyUuid_injective hcontra
      omega
    · exact hitMutate_lookup_ptm fs _ _
  · obtain ⟨fs1, hfs1⟩ : ∃ fs1,
        freshResult (pyUuid st.nextUuid) tenant assistant lr.response chunks e1 =
          Json.obj fs1 := ⟨_, rfl⟩
    have hr1' : r1 = Json.obj fs1 := by rw [hr1, hfs1]
    have htr1 : (Json.obj fs1).truthy = true := by
      rw [← hfs1]
      rfl
    have hlook2 : Json.lookupField st1.cache
        (ragCacheKey deps tenant message assistant) = some (.obj fs1) := by
      rw [hcache, ← hr1']
      exact lookupField_setField_self _ _ _
    refine ⟨_, _, ragQuery_hit_eq hget hlook2 htr1, ?_, ?_, ?_, ?_, ?_⟩
    · rw [hitMutate_lookup_response, hr1']
      rfl
    · exact hitMutate_lookup_cached fs1 _ _
    · exact hitMutate_lookup_query_id fs1 _ _
    · rw [hitMutate_lookup_query_id, hr1']
      have hq1 : (Json.obj fs1).jlookup "query_id" =
          some (.str (pyUuid st.nextUuid)) := by
        rw [← hfs1]
        simp [freshResult, Json.jlookup, Json.lookupField]
      rw [hq1]
      intro hcontra
      simp only [Option.some.injEq, Json.str.injEq] at hcontra
      have := pyUuid_injective hcontra
      omega
    · exact hitMutate_lookup_ptm fs1 _ _

def chunkDemo : SearchResult :=
  { id := "doc_chunk_0", score := 1, content := "ctx", metadata := .obj [] }

def depsDemo : Deps :=
  { sha256hex := fun _ => "0123456789abcdef0123456789abcdef"
    cacheGetUp := true
    cacheSetUp := true
    search := fun _ _ _ => .ok [chunkDemo]
    llm := fun _ _ _ _ _ _ => .ok
      { response := .str "hola", raw_response := "hola"
        tokens_used := 1, model_used := "m" } }

def tenantDemo : Tenant := { id := "t-1", slug := "acme" }

def demoResult1 : Json :=
  .obj [
    ("query_id", .str "uuid-0"),
    ("tenant_id", .str "t-1"),
    ("assistant_id", .null),
    ("assistant_name", .null),
    ("response", .str "hola"),
    ("knowledge_chunks_used", .num 1),
    ("chunks_ids", .arr [.str "doc_chunk_0"]),
    ("cached", .bool false),
    ("processing_time_ms", .num 7)]

set_option maxRecDepth 2000 in
/-- Witness for C2 at a concrete environment and message. -/
theorem query_cache_idempotence_witness :
    ∃ r2 st2,
      ragQuery depsDemo
        { cache := [("query:t-1:0123456789abcdef0123456789abcdef:default", demoResult1)],
          nextUuid := 1 }
        tenantDemo (Json.str "Hello") none none 5 none 9 = .ok (r2, st2) ∧
      r2.jlookup "response" = demoResult1.jlookup "response" ∧
      r2.jlookup "cached" = some (.bool true) ∧
      r2.jlookup "query_id" = some (.str (pyUuid 1)) ∧
      r2.jlookup "query_id" ≠ demoResult1.jlookup "query_id" ∧
      r2.jlookup "processing_time_ms" = some (.num 9) :=
  query_cache_idempotence depsDemo { cache := [], nextUuid := 0 } tenantDemo
    (Json.str "Hello") none none 5 none 7 9 demoResult1
    { cache := [("query:t-1:0123456789abcdef0123456789abcdef:default", demoResult1)],
      nextUuid := 1 } rfl

def depsCacheDown : Deps :=
  { depsDemo with cacheGetUp := false }

set_option maxRecDepth 2000 in
/-- C1 counterexample: with the Redis backend down during lookup and the
retrieval/completion services healthy, `RAGService.query` raises the cache
error instead of treating the failure as a miss — the identical query against
the same environment with a healthy cache succeeds. -/
theorem cache_lookup_failure_fails_query_counterexample :
    ragQuery depsCacheDown { cache := [], nextUuid := 0 } tenantDemo
      (Json.str "hola") none none 5 none 0 = .error "ConnectionError: redis get" ∧
    ragQuery depsDemo { cache := [], nextUuid := 0 } tenantDemo
      (Json.str "hola") none none 5 none 0 ≠ .error "ConnectionError: redis get" := by
  constructor
  · rfl
  · intro h
    obtain ⟨r, st', hok⟩ : ∃ r st', ragQuery depsDemo { cache := [], nextUuid := 0 }
        tenantDemo (Json.str "hola") none none 5 none 0 = .ok (r, st') := ⟨_, _, rfl⟩
    rw [hok] at h
    exact absurd h (by simp)

/-- C1 (amended): a cache-backend failure is *not* swallowed — a failing
Redis `GET` aborts the query immediately with the connection error, and a
failing `SETEX` after a fully successful fresh computation aborts the query
with the store error; both surface to the caller of `RAGService.query`. -/
theorem cache_backend_failure_propagates (deps : Deps) (st : SysState) (tenant : Tenant)
    (message : Json) (instructions searchQuery : Option String) (topK : Nat)
    (assistant : Option Assistant) (elapsedMs : Nat) :
    (deps.cacheGetUp = false →
      ragQuery deps st tenant message instructions searchQuery topK assistant elapsedMs =
        .error "ConnectionError: redis get") ∧
    (deps.cacheGetUp = true → deps.cacheSetUp = false →
      Json.lookupField st.cache (ragCacheKey deps tenant message assistant) = none →
      ∀ kbQuery ragChunks llmResult,
        deriveKbQuery searchQuery message = .ok kbQuery →
        deps.search tenant.slug kbQuery topK = .ok ragChunks →
        deps.llm message ragChunks (combineInstructions assistant instructions)
          (assistant.map (·.system_prompt)) (assistant.map (·.model))
          (assistant.map (·.temperature)) = .ok llmResult →
        ragQuery deps st tenant message instructions searchQuery topK assistant elapsedMs =
          .error "ConnectionError: redis setex") := by
  constructor
  · intro hget
    unfold ragQuery cacheGetResult
    simp [hget]
  · intro hget hset hmiss kbQuery ragChunks llmResult hkb hsearch hllm
    rw [ragCacheKey_eq] at hmiss
    unfold ragQuery cacheGetResult ragQueryFresh cacheSetResult
    simp [hget, hmiss, hkb, hsearch, hllm, hset]

/-- Witness for C1 (amended) at a concrete down environment. -/
theorem cache_backend_failure_propagates_witness :
    ragQuery depsCacheDown { cache := [], nextUuid := 0 } tenantDemo
      (Json.str "x") none none 5 none 0 = .error "ConnectionError: redis get" :=
  (cache_backend_failure_propagates depsCacheDown { cache := [], nextUuid := 0 }
    tenantDemo (Json.str "x") none none 5 none 0).1 rfl

set_option maxRecDepth 2000 in
/-- C3 counterexample: a successful fresh query's payload has no field named
`chunk_ids`; the retrieved chunk ids are under the key `chunks_ids`. -/
theorem chunk_ids_field_name_counterexample :
    ragQuery depsDemo { cache := [], nextUuid := 0 } tenantDemo
      (Json.str "Hello") none none 5 none 7 =
      .ok (demoResult1,
        { cache := [("query:t-1:0123456789abcdef0123456789abcdef:default", demoResult1)],
          nextUuid := 1 }) ∧
    demoResult1.jlookup "chunk_ids" = none ∧
    demoResult1.jlookup "chunks_ids" = some (.arr [.str "doc_chunk_0"]) := by
  refine ⟨rfl, rfl, rfl⟩

/-- C3 (amended): every successful freshly computed query result is an
object with exactly the keys `query_id`, `tenant_id`, `assistant_id`,
`assistant_name`, `response`, `knowledge_chunks_used`, `chunks_ids` (holding
the ids of the retrieved chunks — not `chunk_ids`), `cached` and
`processing_time_ms`. -/
theorem query_result_fresh_shape (deps : Deps) (st : SysState) (tenant : Tenant)
    (message : Json) (instructions searchQuery : Option String) (topK : Nat)
    (assistant : Option Assistant) (elapsedMs : Nat) (r : Json) (st' : SysState)
    (hmiss : Json.lookupField st.cache (ragCacheKey deps tenant message assistant) = none)
    (h : ragQuery deps st tenant message instructions searchQuery topK assistant
      elapsedMs = .ok (r, st')) :
    ∃ ragChunks : List SearchResult,
      Json.objKeys r = ["query_id", "tenant_id", "assistant_id", "assistant_name",
        "response", "knowledge_chunks_used", "chunks_ids", "cached",
        "processing_time_ms"] ∧
      r.jlookup "chunks_ids" = some (.arr (ragChunks.map fun c => .str c.id)) ∧
      r.jlookup "knowledge_chunks_used" = some (.num ragChunks.length) ∧
      r.jlookup "query_id" = some (.str (pyUuid st.nextUuid)) ∧
      r.jlookup "tenant_id" = some (.str tenant.id) ∧
      r.jlookup "cached" = some (.bool false) ∧
      r.jlookup "processing_time_ms" = some (.num elapsedMs) ∧
      r.jlookup "chunk_ids" = none := by
  obtain ⟨hget, hnext, hcase⟩ := ragQuery_ok_cases h
  rcases hcase with ⟨fs, hlook, _, _, _⟩ | ⟨kb, chunks, lr, _, _, _, _, hr, _⟩
  · rw [hmiss] at hlook
    exact absurd hlook (by simp)
  · refine ⟨chunks, ?_, ?_, ?_, ?_, ?_, ?_, ?_, ?_⟩ <;>
      (subst hr; simp [freshResult, Json.objKeys, Json.jlookup, Json.lookupField])

set_option maxRecDepth 2000 in
/-- Witness for C3 (amended) at a concrete environment. -/
theorem query_result_fresh_shape_witness :
    ∃ ragChunks : List SearchResult,
      Json.objKeys demoResult1 = ["query_id", "tenant_id", "assistant_id",
        "assistant_name", "response", "knowledge_chunks_used", "chunks_ids",
        "cached", "processing_time_ms"] ∧
      demoResult1.jlookup "chunks_ids" = some (.arr (ragChunks.map fun c => .str c.id)) ∧
      demoResult1.jlookup "knowledge_chunks_used" = some (.num ragChunks.length) ∧
      demoResult1.jlookup "query_id" = some (.str (pyUuid 0)) ∧
      demoResult1.jlookup "tenant_id" = some (.str tenantDemo.id) ∧
      demoResult1.jlookup "cached" = some (.bool false) ∧
      demoResult1.jlookup "processing_time_ms" = some (.num 7) ∧
      demoResult1.jlookup "chunk_ids" = none :=
  query_result_fresh_shape depsDemo { cache := [], nextUuid := 0 } tenantDemo
    (Json.str "Hello") none none 5 none 7 demoResult1
    { cache := [("query:t-1:0123456789abcdef0123456789abcdef:default", demoResult1)],
      nextUuid := 1 } rfl rfl

/-- C8: the cache key is exactly
`query:{tenantId}:{first 32 hex chars of sha256(canonical message)}:{assistantId or default}`;
two different assistants, or an assistant (whose uuid-string id is never the
literal `default`) versus no assistant, never produce the same key for the
same message; and a fresh successful query stores its result exactly at this
key. -/
theorem cache_key_format_and_separation (deps : Deps) (tenant : Tenant)
    (message : Json) (a b : Assistant) :
    ragCacheKey deps tenant message (some a) =
      "query:" ++ tenant.id ++ ":" ++
        pyTake (deps.sha256hex (canonicalMessageStr message)) 32 ++ ":" ++ a.id ∧
    ragCacheKey deps tenant message none =
      "query:" ++ tenant.id ++ ":" ++
        pyTake (deps.sha256hex (canonicalMessageStr message)) 32 ++ ":" ++ "default" ∧
    (a.id ≠ b.id →
      ragCacheKey deps tenant message (some a) ≠
        ragCacheKey deps tenant message (some b)) ∧
    (a.id ≠ "default" →
      ragCacheKey deps tenant message (some a) ≠
        ragCacheKey deps tenant message none) ∧
    (∀ (st : SysState) (instructions searchQuery : Option String) (topK : Nat)
        (assistant : Option Assistant) (elapsedMs : Nat) (r : Json) (st' : SysState),
      Json.lookupField st.cache (ragCacheKey deps tenant message assistant) = none →
      ragQuery deps st tenant message instructions searchQuery topK assistant
        elapsedMs = .ok (r, st') →
      Json.lookupField st'.cache (ragCacheKey deps tenant message assistant) =
        some r) := by
  refine ⟨?_, ?_, ?_, ?_, ?_⟩
  · rw [ragCacheKey_eq]
    unfold generateCacheKey assistantIdStr
    apply String.ext
    simp [String.data_append, List.append_assoc]
  · rw [ragCacheKey_eq]
    unfold generateCacheKey assistantIdStr
    apply String.ext
    simp [String.data_append, List.append_assoc]
  · intro hne heq
    rw [ragCacheKey_eq, ragCacheKey_eq] at heq
    unfold generateCacheKey assistantIdStr at heq
    exact hne (string_append_left_cancel (string_append_left_cancel heq))
  · intro hne heq
    rw [ragCacheKey_eq, ragCacheKey_eq] at heq
    unfold generateCacheKey assistantIdStr at heq
    exact hne (string_append_left_cancel (string_append_left_cancel heq))
  · intro st instructions searchQuery topK assistant elapsedMs r st' hmiss h
    obtain ⟨_, _, hcase⟩ := ragQuery_ok_cases h
    rcases hcase with ⟨fs, hlook, _, _, _⟩ | ⟨_, _, _, _, _, _, _, _, hcache⟩
    · rw [hmiss] at hlook
      exact absurd hlook (by simp)
    · rw [hcache]
      exact lookupField_setField_self _ _ _

def assistantDemoA : Assistant :=
  { id := "a-1", name := "A", system_prompt := "sp", evaluation_prompt := none,
    model := "m", temperature := 0 }

def assistantDemoB : Assistant :=
  { id := "a-2", name := "B", system_prompt := "sp", evaluation_prompt := none,
    model := "m", temperature := 0 }

/-- Witness for C8: two concrete assistants with different ids get
different cache keys. -/
theorem cache_key_format_and_separation_witness :
    ragCacheKey depsDemo tenantDemo (Json.str "Hello") (some assistantDemoA) ≠
      ragCacheKey depsDemo tenantDemo (Json.str "Hello") (some assistantDemoB) :=
  (cache_key_format_and_separation depsDemo tenantDemo (Json.str "Hello")
    assistantDemoA assistantDemoB).2.2.1 (by decide)

/-- The search-query derivation exactly as the claim words it: string values
of the six known fields plus the `question` fields of the first three entries
of a `questions` list, joined and truncated, with the sentinel fallback —
and nothing else. -/
def extractSearchTextClaimed (data : Json) : String :=
  match data with
  | .str s => pyTake s 500
  | _ =>
    let parts :=
      (["query", "question", "text", "content", "message", "search"].filterMap fun k =>
        match data.jlookup k with
        | some (.str s) => some s
        | _ => none) ++
      (match data.jlookup "questions" with
       | some (.arr qs) => (qs.take 3).filterMap fun q =>
          match q with
          | .obj fields =>
            match Json.lookupField fields "question" with
            | some (.str s) => some s
            | _ => none
          | _ => none
       | _ => [])
    let result := String.intercalate " " parts
    if result = "" then "general query" else pyTake result 500

/-- C5 counterexample: for a structured message that is a *list*, the code
derives the search query from the list's leading string entries — the claim's
field-based description predicts the sentinel `"general query"` instead. -/
theorem search_text_list_message_counterexample :
    deriveKbQuery none (Json.arr [Json.str "hello from the archive"]) =
      .ok "hello from the archive" ∧
    extractSearchTextClaimed (Json.arr [Json.str "hello from the archive"]) =
      "general query" ∧
    ¬ (deriveKbQuery none (Json.arr [Json.str "hello from the archive"]) =
      .ok (extractSearchTextClaimed (Json.arr [Json.str "hello from the archive"]))) := by
  refine ⟨rfl, rfl, ?_⟩
  intro h
  rw [show extractSearchTextClaimed (Json.arr [Json.str "hello from the archive"]) =
    "general query" from rfl] at h
  rw [show deriveKbQuery none (Json.arr [Json.str "hello from the archive"]) =
    .ok "hello from the archive" from rfl] at h
  simp at h

/-- The value the `questions` loop reads from one entry. -/
def questionFieldOf : Json → Option Json
  | .obj fields => Json.lookupField fields "question"
  | _ => none

/-- The value the list branch reads from one entry. -/
def listItemVal : Json → Option Json
  | .str s => some (.str s)
  | .obj fields => Json.lookupField fields "question"
  | _ => none

/-- A collected fragment must be a string; anything else is the `TypeError`
that `" ".join` raises. -/
def strOrTypeError : Json → Except String String
  | .str s => .ok s
  | _ => .error "TypeError: sequence item: expected str instance"

/-- First-error traversal of the collected fragment values (the spec-side
counterpart of appending then joining). -/
def fragmentsMapM : List Json → Except String (List String)
  | [] => .ok []
  | v :: rest => do
    let s ← strOrTypeError v
    let tl ← fragmentsMapM rest
    pure (s :: tl)

/-- Amended-spec fragment collection: priority-field strings, then the
`question` values of the first three `questions` entries (map messages), or
the first three entries themselves (list messages). -/
def amendedFragments (data : Json) : Except String (List String) :=
  match data with
  | .obj _ =>
    let priority :=
      ["query", "question", "text", "content", "message", "search"].filterMap fun k =>
        match data.jlookup k with
        | some (.str s) => some s
        | _ => none
    let questionVals : List Json :=
      match data.jlookup "questions" with
      | some (.arr qs) => (qs.take 3).filterMap questionFieldOf
      | _ => []
    (fragmentsMapM questionVals).map fun qparts => priority ++ qparts
  | .arr items => fragmentsMapM ((items.take 3).filterMap listItemVal)
  | _ => .ok []

/-- Amended-spec search-query derivation. -/
def extractSearchTextAmendedSpec (data : Json) : Except String String :=
  match data with
  | .str s => .ok (pyTake s 500)
  | _ =>
    (amendedFragments data).map fun parts =>
      let result := String.intercalate " " parts
      if result = "" then "general query" else pyTake result 500

theorem questionEntryParts_eq (l : List Json) :
    questionEntryParts l = fragmentsMapM (l.filterMap questionFieldOf) := by
  induction l with
  | nil => rfl
  | cons q rest ih =>
    cases q with
    | obj fields =>
      simp only [questionEntryParts, questionFieldOf, List.filterMap_cons]
      cases hq : Json.lookupField fields "question" with
      | none => exact ih
      | some v =>
        cases v with
        | str s => simp [fragmentsMapM, strOrTypeError, ih, Bind.bind, Except.bind]
        | num n => simp [fragmentsMapM, strOrTypeError, Bind.bind, Except.bind]
        | bool b => simp [fragmentsMapM, strOrTypeError, Bind.bind, Except.bind]
        | null => simp [fragmentsMapM, strOrTypeError, Bind.bind, Except.bind]
        | arr xs => simp [fragmentsMapM, strOrTypeError, Bind.bind, Except.bind]
        | obj fs => simp [fragmentsMapM, strOrTypeError, Bind.bind, Except.bind]
    | str s => simp [questionEntryParts, questionFieldOf, List.filterMap_cons, ih]
    | num n => simp [questionEntryParts, questionFieldOf, List.filterMap_cons, ih]
    | bool b => simp [questionEntryParts, questionFieldOf, List.filterMap_cons, ih]
    | null => simp [questionEntryParts, questionFieldOf, List.filterMap_cons, ih]
    | arr xs => simp [questionEntryParts, questionFieldOf, List.filterMap_cons, ih]

theorem listEntryParts_eq (l : List Json) :
    listEntryParts l = fragmentsMapM (l.filterMap listItemVal) := by
  induction l with
  | nil => rfl
  | cons item rest ih =>
    cases item with
    | str s => simp [listEntryParts, listItemVal, List.filterMap_cons, fragmentsMapM,
        strOrTypeError, ih, Bind.bind, Except.bind]
    | obj fields =>
      simp only [listEntryParts, listItemVal, List.filterMap_cons]
      cases hq : Json.lookupField fields "question" with
      | none => exact ih
      | some v =>
        cases v with
        | str s => simp [fragmentsMapM, strOrTypeError, ih, Bind.bind, Except.bind]
        | num n => simp [fragmentsMapM, strOrTypeError, Bind.bind, Except.bind]
        | bool b => simp [fragmentsMapM, strOrTypeError, Bind.bind, Except.bind]
        | null => simp [fragmentsMapM, strOrTypeError, Bind.bind, Except.bind]
        | arr xs => simp [fragmentsMapM, strOrTypeError, Bind.bind, Except.bind]
        | obj fs => simp [fragmentsMapM, strOrTypeError, Bind.bind, Except.bind]
    | num n => simp [listEntryParts, listItemVal, List.filterMap_cons, ih]
    | bool b => simp [listEntryParts, listItemVal, List.filterMap_cons, ih]
    | null => simp [listEntryParts, listItemVal, List.filterMap_cons, ih]
    | arr xs => simp [listEntryParts, listItemVal, List.filterMap_cons, ih]

/-- C5 (amended): without an explicit search query, a plain-string message
contributes its first 500 characters; a map message contributes the string
values of `query`/`question`/`text`/`content`/`message`/`search` plus the
`question` values of the first three `questions` entries (a non-string value
there raises a `TypeError`); a list message contributes its first three
entries (strings directly, `question` fields of map entries, non-strings
raising); fragments are space-joined and truncated to 500 characters, with
the sentinel `"general query"` when the join is empty. -/
theorem kb_query_derivation_amended (message : Json) :
    deriveKbQuery none message = extractSearchTextAmendedSpec message := by
  cases message with
  | str s => rfl
  | num n => rfl
  | bool b => rfl
  | null => rfl
  | arr items =>
    show extractSearchText (.arr items) 500 = _
    unfold extractSearchText extractSearchTextAmendedSpec amendedFragments
    dsimp only
    rw [listEntryParts_eq]
    cases hm : fragmentsMapM ((items.take 3).filterMap listItemVal) with
    | error e => simp [Except.map]
    | ok parts => simp [Except.map]
  | obj fields =>
    show extractSearchText (.obj fields) 500 = _
    unfold extractSearchText extractSearchTextAmendedSpec amendedFragments
    dsimp only
    cases hq : (Json.obj fields).jlookup "questions" with
    | none => simp [fragmentsMapM, Except.map]
    | some v =>
      cases v with
      | arr qs =>
        dsimp only
        rw [questionEntryParts_eq]
        cases hm : fragmentsMapM ((qs.take 3).filterMap questionFieldOf) with
        | error e => simp [Except.map, Bind.bind, Except.bind]
        | ok qparts => simp [Except.map, Bind.bind, Except.bind, Pure.pure, Except.pure]
      | str s => simp [fragmentsMapM, Except.map]
      | num n => simp [fragmentsMapM, Except.map]
      | bool b => simp [fragmentsMapM, Except.map]
      | null => simp [fragmentsMapM, Except.map]
      | obj fs => simp [fragmentsMapM, Except.map]

/-! ## The batch endpoint (`batch_query`, `app/routers/evaluate.py`, lines 206-257)

One item's processing — assistant resolution plus `RAGService.query` — is the
function parameter `handle`; it returns the item's outcome (value or raised
exception) together with the state as left behind (a raised exception keeps
whatever state changes already happened). -/

/-- Model of a `QueryRequest` (`app/schemas/evaluation.py`). -/
structure QueryRequest where
  assistant_id : Option String
  assistant_slug : Option String
  message : Json
  instructions : Option String
  search_query : Option String
  top_k : Nat

/-- Python `r["status"] == s` on a result entry. -/
def statusIs (e : Json) (s : String) : Bool :=
  match e.jlookup "status" with
  | some (.str s') => s' = s
  | _ => false

/-- The `for i, request in enumerate(requests)` loop with its
`try`/`except`: a success appends an `index`/`status`/`result` entry, a
failure appends an `index`/`status`/`error` entry, and processing
continues. -/
def processBatchItems (handle : QueryRequest → SysState → Except String Json × SysState) :
    SysState → List (Nat × QueryRequest) → List Json × SysState
  | st, [] => ([], st)
  | st, (i, req) :: rest =>
    match handle req st with
    | (.ok v, st1) =>
      let (tl, st2) := processBatchItems handle st1 rest
      (.obj [("index", .num i), ("status", .str "success"), ("result", v)] :: tl, st2)
    | (.error e, st1) =>
      let (tl, st2) := processBatchItems handle st1 rest
      (.obj [("index", .num i), ("status", .str "error"), ("error", .str e)] :: tl, st2)

/-- Model of `batch_query`: an over-limit batch is rejected with HTTP 400 before any
item is processed; otherwise the items are processed sequentially and the
response reports the totals and per-item entries. -/
def batchQuery (handle : QueryRequest → SysState → Except String Json × SysState)
    (st : SysState) (requests : List QueryRequest) : Except String (Json × SysState) :=
  if requests.length > 10 then
    .error "Maximum 10 queries per batch request"
  else
    let (results, st') := processBatchItems handle st requests.enum
    .ok (.obj [
      ("total", .num requests.length),
      ("successful", .num (results.countP fun e => statusIs e "success")),
      ("failed", .num (results.countP fun e => statusIs e "error")),
      ("results", .arr results)], st')

/-- The state in which item `i` is processed: the fold of the handler over
the first `i` requests. -/
def stateBeforeItem (handle : QueryRequest → SysState → Except String Json × SysState)
    (st : SysState) : List QueryRequest → Nat → SysState
  | _, 0 => st
  | [], _ + 1 => st
  | req :: rest, i + 1 => stateBeforeItem handle (handle req st).2 rest i

theorem processBatchItems_spec
    (handle : QueryRequest → SysState → Except String Json × SysState) :
    ∀ (reqs : List QueryRequest) (st : SysState) (k : Nat),
      (processBatchItems handle st (reqs.enumFrom k)).1.length = reqs.length ∧
      ∀ i (hi : i < reqs.length),
        (processBatchItems handle st (reqs.enumFrom k)).1.get? i = some (
          match (handle (reqs.get ⟨i, hi⟩) (stateBeforeItem handle st reqs i)).1 with
          | .ok v => .obj [("index", .num (k + i)), ("status", .str "success"),
              ("result", v)]
          | .error e => .obj [("index", .num (k + i)), ("status", .str "error"),
              ("error", .str e)]) := by
  intro reqs
  induction reqs with
  | nil => intro st k; exact ⟨rfl, fun i hi => absurd hi (by simp)⟩
  | cons req rest ih =>
    intro st k
    simp only [List.enumFrom_cons, processBatchItems]
    cases hh : handle req st with
    | mk outcome st1 =>
      cases outcome with
      | ok v =>
        constructor
        · simp [(ih st1 (k + 1)).1]
        · intro i hi
          cases i with
          | zero =>
            simp [stateBeforeItem, hh]
          | succ j =>
            have hj : j < rest.length := by simpa using hi
            have hspec := (ih st1 (k + 1)).2 j hj
            rw [show ((k + 1 : Nat) : Int) + (j : Nat) =
              ((k : Nat) : Int) + ((j + 1 : Nat) : Int) from by push_cast; ring] at hspec
            simp only [List.get?_cons_succ, List.get_cons_succ, stateBeforeItem, hh]
            exact hspec
      | error e =>
        constructor
        · simp [(ih st1 (k + 1)).1]
        · intro i hi
          cases i with
          | zero =>
            simp [stateBeforeItem, hh]
          | succ j =>
            have hj : j < rest.length := by simpa using hi
            have hspec := (ih st1 (k + 1)).2 j hj
            rw [show ((k + 1 : Nat) : Int) + (j : Nat) =
              ((k : Nat) : Int) + ((j + 1 : Nat) : Int) from by push_cast; ring] at hspec
            simp only [List.get?_cons_succ, List.get_cons_succ, stateBeforeItem, hh]
            exact hspec

/-- C9: an accepted batch (at most 10 queries) is processed sequentially in
list order with the state threaded left to right; an exception in one item is
recorded as that item's per-index error entry and processing continues; the
response reports the total and the per-item success/failure counts and the
batch itself never fails. -/
theorem batch_sequential_isolated_failures
    (handle : QueryRequest → SysState → Except String Json × SysState)
    (st : SysState) (reqs : List QueryRequest) (hlen : reqs.length ≤ 10) :
    ∃ entries st',
      batchQuery handle st reqs = .ok (.obj [
        ("total", .num reqs.length),
        ("successful", .num (entries.countP fun e => statusIs e "success")),
        ("failed", .num (entries.countP fun e => statusIs e "error")),
        ("results", .arr entries)], st') ∧
      entries.length = reqs.length ∧
      ∀ i (hi : i < reqs.length),
        entries.get? i = some (
          match (handle (reqs.get ⟨i, hi⟩) (stateBeforeItem handle st reqs i)).1 with
          | .ok v => .obj [("index", .num i), ("status", .str "success"), ("result", v)]
          | .error e =>
            .obj [("index", .num i), ("status", .str "error"), ("error", .str e)]) := by
  refine ⟨(processBatchItems handle st reqs.enum).1,
    (processBatchItems handle st reqs.enum).2, ?_, ?_, ?_⟩
  · unfold batchQuery
    simp [show ¬ reqs.length > 10 from by omega]
  · exact (processBatchItems_spec handle reqs st 0).1
  · intro i hi
    have := (processBatchItems_spec handle reqs st 0).2 i hi
    simpa using this

/-- C10: a batch of more than 10 queries is rejected with the HTTP 400
error before any item is processed — the result is the same error whatever
the per-item handler and state, so no query of an over-limit batch is
executed. -/
theorem batch_over_limit_rejected
    (handle handle' : QueryRequest → SysState → Except String Json × SysState)
    (st st' : SysState) (reqs : List QueryRequest) (hlen : reqs.length > 10) :
    batchQuery handle st reqs = .error "Maximum 10 queries per batch request" ∧
    batchQuery handle st reqs = batchQuery handle' st' reqs := by
  unfold batchQuery
  simp [hlen]

def reqDemoOk : QueryRequest :=
  { assistant_id := none, assistant_slug := none, message := .str "hi"
    instructions := none, search_query := none, top_k := 5 }

def reqDemoBad : QueryRequest :=
  { reqDemoOk with top_k := 0 }

def handleDemo (req : QueryRequest) (st : SysState) : Except String Json × SysState :=
  if req.top_k = 0 then (.error "boom", st) else (.ok (.str "ok"), st)

/-- Witness for C9: a two-item batch whose second item raises. -/
theorem batch_sequential_isolated_failures_witness :
    ∃ entries st',
      batchQuery handleDemo { cache := [], nextUuid := 0 } [reqDemoOk, reqDemoBad] =
        .ok (.obj [
          ("total", .num ([reqDemoOk, reqDemoBad] : List QueryRequest).length),
          ("successful", .num (entries.countP fun e => statusIs e "success")),
          ("failed", .num (entries.countP fun e => statusIs e "error")),
          ("results", .arr entries)], st') ∧
      entries.length = ([reqDemoOk, reqDemoBad] : List QueryRequest).length ∧
      ∀ i (hi : i < ([reqDemoOk, reqDemoBad] : List QueryRequest).length),
        entries.get? i = some (
          match (handleDemo (([reqDemoOk, reqDemoBad] : List QueryRequest).get ⟨i, hi⟩)
              (stateBeforeItem handleDemo { cache := [], nextUuid := 0 }
                [reqDemoOk, reqDemoBad] i)).1 with
          | .ok v => .obj [("index", .num i), ("status", .str "success"), ("result", v)]
          | .error e =>
            .obj [("index", .num i), ("status", .str "error"), ("error", .str e)]) :=
  batch_sequential_isolated_failures handleDemo { cache := [], nextUuid := 0 }
    [reqDemoOk, reqDemoBad] (by decide)

/-- Witness for C10: an 11-item batch is rejected. -/
theorem batch_over_limit_rejected_witness :
    batchQuery handleDemo { cache := [], nextUuid := 0 }
      (List.replicate 11 reqDemoOk) = .error "Maximum 10 queries per batch request" :=
  (batch_over_limit_rejected handleDemo handleDemo { cache := [], nextUuid := 0 }
    { cache := [], nextUuid := 0 } (List.replicate 11 reqDemoOk) (by decide)).1
